import Mathlib

/-!
Shallow embedding of the `ReactiveTwitter` contract (`src/ReactiveTwitter.sol`)
and proofs about the claims of its specification.

Conventions of the embedding:
* Ethereum addresses are modelled as `Nat`, with `0` playing the role of
  `address(0)`.  Callers of public functions are assumed to be nonzero
  (a contract call never originates from the zero address).
* `uint256` values are modelled as `Nat`.  The contract compiles with
  Solidity >= 0.8, where arithmetic underflow reverts; the counter
  decrements performed by the code are only reached in states where the
  counters are positive (this is part of what we prove), so truncating
  `Nat` subtraction coincides with the EVM semantics on those states.
* Solidity `mapping`s are modelled as total functions with the zero value
  of the value type as default, exactly as the EVM zero-initialises
  storage.
* `string` is modelled as Lean `String`; `bytes(s).length` is modelled as
  `String.length`.  The nickname character check iterates over characters
  instead of UTF-8 bytes; on every string a byte outside the allowed
  ASCII ranges occurs iff a character outside them occurs, so validity
  agrees.
* Reverting calls are modelled with `Except String`, the error carrying
  the `require` message of the source.  A revert produces no successor
  state (the step relation below only advances on `.ok`), which models
  the all-or-nothing transaction semantics of the EVM.
* `block.timestamp` is passed explicitly as a `ts : Nat` argument.
-/

namespace ReactiveTwitter

/-- Mirror of the Solidity struct `Message`. -/
structure Message where
  sender : Nat
  content : String
  timestamp : Nat
  nickname : String
  replyToMessageId : Nat
  isDeleted : Bool
deriving DecidableEq, Repr

/-- Zero value of `Message`, as the EVM zero-initialises mapping slots and
`new Message[](n)` array elements. -/
def zeroMessage : Message :=
  { sender := 0, content := "", timestamp := 0, nickname := ""
    replyToMessageId := 0, isDeleted := false }

/-- Mirror of the Solidity struct `UserProfile`. -/
structure UserProfile where
  nickname : String
  avatarCode : String
  isActive : Bool
  lastNicknameUpdate : Nat
deriving DecidableEq, Repr

/-- Zero value of `UserProfile`. -/
def zeroProfile : UserProfile :=
  { nickname := "", avatarCode := "", isActive := false, lastNicknameUpdate := 0 }

/-- Constant `PERIOD_SIZE` of the contract. -/
def PERIOD_SIZE : Nat := 100

/-- Pointwise update of a mapping, modelling a Solidity storage write. -/
def setF {α β : Type} [DecidableEq α] (f : α → β) (k : α) (v : β) : α → β :=
  fun x => if x = k then v else f x

/-- Storage of the contract: every storage variable of `ReactiveTwitter`
except the event log.  The `periods` array is kept for completeness even
though no claim mentions it. -/
structure ContractState where
  maxMessageLength : Nat
  messageCooldown : Nat
  maxReturnCount : Nat
  maxActiveMessages : Nat
  owner : Nat
  messages : Nat → Message
  messageCount : Nat
  messageIdsByPeriod : Nat → List Nat
  activeMessageCountByPeriod : Nat → Nat
  periods : List Nat
  periodExists : Nat → Bool
  senderToMessageIds : Nat → List Nat
  activeSenderMessageCount : Nat → Nat
  messageReplies : Nat → List Nat
  activeReplyCount : Nat → Nat
  nicknameToAddress : String → Nat
  addressToProfile : Nat → UserProfile
  lastMessageTime : Nat → Nat
  totalActiveMessages : Nat
  chronologicalMessageIds : List Nat
  messageIdToChronologicalIndex : Nat → Nat

/-- The constructor of the contract: reserves id 0 as an already-deleted
sentinel so that `replyToMessageId = 0` can mean "not a reply". -/
def initState (deployer ts : Nat) : ContractState where
  maxMessageLength := 768
  messageCooldown := 60
  maxReturnCount := 50
  maxActiveMessages := 500
  owner := deployer
  messages := setF (fun _ => zeroMessage) 0
    { sender := 0, content := "", timestamp := ts, nickname := ""
      replyToMessageId := 0, isDeleted := true }
  messageCount := 1
  messageIdsByPeriod := setF (fun _ => []) 0 [0]
  activeMessageCountByPeriod := fun _ => 0
  periods := [0]
  periodExists := setF (fun _ => false) 0 true
  senderToMessageIds := fun _ => []
  activeSenderMessageCount := fun _ => 0
  messageReplies := fun _ => []
  activeReplyCount := fun _ => 0
  nicknameToAddress := fun _ => 0
  addressToProfile := fun _ => zeroProfile
  lastMessageTime := fun _ => 0
  totalActiveMessages := 0
  chronologicalMessageIds := [0]
  messageIdToChronologicalIndex := setF (fun _ => 0) 0 0

/-- Mirror of the private function `_markMessageAsDeleted`: flips the
soft-delete flag and decrements the redundant counters.  The parent reply
counter is decremented only when the record is a reply. -/
def markMessageAsDeletedInternal (s : ContractState) (messageId : Nat) : ContractState :=
  if (s.messages messageId).isDeleted then s
  else
    let m := s.messages messageId
    let s1 := { s with messages := setF s.messages messageId { m with isDeleted := true } }
    let period := messageId / PERIOD_SIZE
    let s2 :=
      if s1.periodExists period then
        { s1 with activeMessageCountByPeriod := setF s1.activeMessageCountByPeriod period (s1.activeMessageCountByPeriod period - 1) }
      else s1
    let s3 := { s2 with activeSenderMessageCount := setF s2.activeSenderMessageCount m.sender (s2.activeSenderMessageCount m.sender - 1) }
    let s4 :=
      if m.replyToMessageId ≠ 0 then
        { s3 with activeReplyCount := setF s3.activeReplyCount m.replyToMessageId (s3.activeReplyCount m.replyToMessageId - 1) }
      else s3
    { s4 with totalActiveMessages := s4.totalActiveMessages - 1 }

/-- Predicate guarding deletion in the eviction loop of
`deleteOldestMessages`: the record is not yet deleted and is top-level. -/
def eligibleB (s : ContractState) (messageId : Nat) : Bool :=
  !(s.messages messageId).isDeleted && (s.messages messageId).replyToMessageId == 0

/-- The scanning loop of `deleteOldestMessages`, iterating over the
remaining suffix of the chronological id array.  Besides the final state
and the final `deletedCount`, it also returns (for specification purposes
only) the list of the ids it deleted, in deletion order. -/
def deleteOldestScan (s : ContractState) (ids : List Nat)
    (deletedCount maxToDelete : Nat) : ContractState × Nat × List Nat :=
  match ids with
  | [] => (s, deletedCount, [])
  | messageId :: rest =>
    if deletedCount < maxToDelete then
      if eligibleB s messageId then
        let r := deleteOldestScan (markMessageAsDeletedInternal s messageId)
          rest (deletedCount + 1) maxToDelete
        (r.1, r.2.1, messageId :: r.2.2)
      else
        deleteOldestScan s rest deletedCount maxToDelete
    else (s, deletedCount, [])

/-- Mirror of the private function `deleteOldestMessages`: evicts up to
`count` of the oldest non-deleted top-level records.  The loop of the
source starts at index 1 of the chronological array, which corresponds to
`List.drop 1` here. -/
def deleteOldestMessages (s : ContractState) (count : Nat) : ContractState :=
  if count = 0 || s.totalActiveMessages = 0 then s
  else
    let maxToDelete := if count < s.totalActiveMessages then count else s.totalActiveMessages
    (deleteOldestScan s (s.chronologicalMessageIds.drop 1) 0 maxToDelete).1

/-- Ghost companion of `deleteOldestMessages`: the ids it soft-deletes, in
deletion order. -/
def deleteOldestTrace (s : ContractState) (count : Nat) : List Nat :=
  if count = 0 || s.totalActiveMessages = 0 then []
  else
    let maxToDelete := if count < s.totalActiveMessages then count else s.totalActiveMessages
    (deleteOldestScan s (s.chronologicalMessageIds.drop 1) 0 maxToDelete).2.2

/-- Record insertion shared by `postMessage`/`replyToMessage`: everything
the two functions do after their `require` checks and the just-in-time
eviction check: id allocation, record write, index appends and counter
increments.  `replyTo` is 0 for `postMessage`. -/
def insertRecord (s0 : ContractState) (sender ts : Nat) (content : String)
    (replyTo : Nat) (isReply : Bool) : ContractState :=
  let messageId := s0.messageCount
  let period := messageId / PERIOD_SIZE
  let newMsg : Message :=
    { sender := sender, content := content, timestamp := ts
      nickname := (s0.addressToProfile sender).nickname
      replyToMessageId := replyTo, isDeleted := false }
  let s1 := { s0 with
    messageCount := s0.messageCount + 1
    messages := setF s0.messages messageId newMsg }
  let s2 :=
    if !s1.periodExists period then
      { s1 with periods := s1.periods ++ [period]
                periodExists := setF s1.periodExists period true }
    else s1
  let s3 := { s2 with
    messageIdsByPeriod := setF s2.messageIdsByPeriod period
      (s2.messageIdsByPeriod period ++ [messageId])
    activeMessageCountByPeriod := setF s2.activeMessageCountByPeriod period
      (s2.activeMessageCountByPeriod period + 1) }
  let s4 := { s3 with
    senderToMessageIds := setF s3.senderToMessageIds sender
      (s3.senderToMessageIds sender ++ [messageId])
    activeSenderMessageCount := setF s3.activeSenderMessageCount sender
      (s3.activeSenderMessageCount sender + 1) }
  let s5 :=
    if isReply then
      { s4 with
        messageReplies := setF s4.messageReplies replyTo
          (s4.messageReplies replyTo ++ [messageId])
        activeReplyCount := setF s4.activeReplyCount replyTo
          (s4.activeReplyCount replyTo + 1) }
    else s4
  let s6 := { s5 with
    chronologicalMessageIds := s5.chronologicalMessageIds ++ [messageId]
    messageIdToChronologicalIndex := setF s5.messageIdToChronologicalIndex messageId
      ((s5.chronologicalMessageIds ++ [messageId]).length - 1) }
  { s6 with
    totalActiveMessages := s6.totalActiveMessages + 1
    lastMessageTime := setF s6.lastMessageTime sender ts }

/-- Shared effect of `postMessage`/`replyToMessage` after their `require`
checks: just-in-time eviction of one slot when the active total has
reached the cap, then insertion of the new record. -/
def createRecord (s : ContractState) (sender ts : Nat) (content : String)
    (replyTo : Nat) (isReply : Bool) : ContractState :=
  insertRecord
    (if s.totalActiveMessages ≥ s.maxActiveMessages then deleteOldestMessages s 1 else s)
    sender ts content replyTo isReply

/-- Mirror of the external function `postMessage`. -/
def postMessage (s : ContractState) (sender ts : Nat) (content : String) :
    Except String ContractState :=
  if content.length = 0 then .error "Message cannot be empty"
  else if content.length > s.maxMessageLength then .error "Message too long"
  else if ts - s.lastMessageTime sender < s.messageCooldown then
    .error "Please wait before posting again"
  else if (s.addressToProfile sender).nickname.length = 0 then
    .error "Create a profile first"
  else if !(s.addressToProfile sender).isActive then .error "Profile is deactivated"
  else .ok (createRecord s sender ts content 0 false)

/-- Mirror of the external function `replyToMessage`.  Note that the
existence check of the parent id comes first in the source. -/
def replyToMessage (s : ContractState) (sender ts replyToMessageId : Nat)
    (content : String) : Except String ContractState :=
  if ¬ replyToMessageId < s.messageCount then .error "Original message does not exist"
  else if content.length = 0 then .error "Message cannot be empty"
  else if content.length > s.maxMessageLength then .error "Message too long"
  else if ts - s.lastMessageTime sender < s.messageCooldown then
    .error "Please wait before posting again"
  else if (s.addressToProfile sender).nickname.length = 0 then
    .error "Create a profile first"
  else if !(s.addressToProfile sender).isActive then .error "Profile is deactivated"
  else .ok (createRecord s sender ts content replyToMessageId true)

/-- Mirror of the external function `markMessageAsDeleted`. -/
def markMessageAsDeleted (s : ContractState) (sender messageId : Nat) :
    Except String ContractState :=
  if ¬ messageId < s.messageCount then .error "Message does not exist"
  else if ¬ ((s.messages messageId).sender = sender ∨ sender = s.owner) then
    .error "Not authorized to delete this message"
  else if (s.messages messageId).isDeleted then .error "Message already deleted"
  else .ok (markMessageAsDeletedInternal s messageId)

/-- Mirror of the external function `updateParameters` (owner only); when
the new cap is below the current active total it evicts the difference. -/
def updateParameters (s : ContractState) (sender newMaxMessageLength newMessageCooldown
    newMaxReturnCount newMaxActiveMessages : Nat) : Except String ContractState :=
  if ¬ sender = s.owner then .error "Only owner can call this function"
  else
    let s1 := { s with
      maxMessageLength := newMaxMessageLength
      messageCooldown := newMessageCooldown
      maxReturnCount := newMaxReturnCount
      maxActiveMessages := newMaxActiveMessages }
    if s1.totalActiveMessages > newMaxActiveMessages then
      .ok (deleteOldestMessages s1 (s1.totalActiveMessages - newMaxActiveMessages))
    else .ok s1

/-- Character classes accepted by `_validateNickname`: ASCII digits,
upper-case and lower-case letters and the underscore. -/
def validNicknameChar (c : Char) : Bool :=
  (0x30 ≤ c.toNat && c.toNat ≤ 0x39) || (0x41 ≤ c.toNat && c.toNat ≤ 0x5A) ||
  (0x61 ≤ c.toNat && c.toNat ≤ 0x7A) || (c.toNat == 0x5F)

/-- Mirror of the private function `_validateNickname`. -/
def validateNickname (nickname : String) : Bool :=
  nickname.data.all validNicknameChar

/-- Mirror of the external function `updateProfile`: validates the
nickname, rejects a nickname held by a different identity, releases the
caller's previous nickname when the directory entry still points to the
caller, then writes the profile and the directory entry. -/
def updateProfile (s : ContractState) (sender ts : Nat) (nickname avatarCode : String) :
    Except String ContractState :=
  if nickname.length = 0 then .error "Nickname cannot be empty"
  else if nickname.length > 32 then .error "Nickname too long"
  else if ¬ validateNickname nickname then .error "Nickname contains invalid characters"
  else if s.nicknameToAddress nickname ≠ 0 ∧ s.nicknameToAddress nickname ≠ sender then
    .error "Nickname already taken"
  else
    let oldNickname := (s.addressToProfile sender).nickname
    let s1 :=
      if oldNickname.length > 0 ∧ s.nicknameToAddress oldNickname = sender then
        { s with nicknameToAddress := setF s.nicknameToAddress oldNickname 0 }
      else s
    let prof := s1.addressToProfile sender
    let prof' := { prof with nickname := nickname, avatarCode := avatarCode, isActive := true, lastNicknameUpdate := ts }
    let s2 := { s1 with addressToProfile := setF s1.addressToProfile sender prof' }
    .ok { s2 with nicknameToAddress := setF s2.nicknameToAddress nickname sender }

/-- Mirror of the external function `updateAvatar`. -/
def updateAvatar (s : ContractState) (sender : Nat) (avatarCode : String) :
    Except String ContractState :=
  if (s.addressToProfile sender).nickname.length = 0 then .error "Set nickname first"
  else
    let prof := s.addressToProfile sender
    let prof' := { prof with avatarCode := avatarCode }
    .ok { s with addressToProfile := setF s.addressToProfile sender prof' }

/-- Mirror of the external function `deactivateProfile`: releases the
directory entry when it still points to the caller and clears the active
flag; the profile row itself persists. -/
def deactivateProfile (s : ContractState) (sender : Nat) : Except String ContractState :=
  if (s.addressToProfile sender).nickname.length = 0 then .error "Profile not found"
  else
    let currentNickname := (s.addressToProfile sender).nickname
    let s1 :=
      if s.nicknameToAddress currentNickname = sender then
        { s with nicknameToAddress := setF s.nicknameToAddress currentNickname 0 }
      else s
    let prof := s1.addressToProfile sender
    let prof' := { prof with isActive := false }
    .ok { s1 with addressToProfile := setF s1.addressToProfile sender prof' }

/-- The collecting loop of `getLatestMessages`: walks the given ids
(newest first), keeping non-deleted top-level records, until `remaining`
slots are filled. -/
def collectLatest (s : ContractState) (ids : List Nat) (remaining : Nat) : List Message :=
  match ids, remaining with
  | _, 0 => []
  | [], _ + 1 => []
  | id :: rest, r + 1 =>
    let m := s.messages id
    if m.replyToMessageId == 0 && !m.isDeleted then m :: collectLatest s rest r
    else collectLatest s rest (r + 1)

/-- Mirror of the external view `getLatestMessages`.  The source allocates
an array of `resultCount` zero-initialised elements and fills a prefix of
it; slots the loop never reaches stay at the zero message, which the
trailing `List.replicate` models. -/
def getLatestMessages (s : ContractState) (count : Nat) : Except String (List Message) :=
  if ¬ count ≤ s.maxReturnCount then .error "Too many messages requested"
  else
    let resultCount := if count < s.totalActiveMessages then count else s.totalActiveMessages
    let collected := collectLatest s s.chronologicalMessageIds.reverse resultCount
    .ok (collected ++ List.replicate (resultCount - collected.length) zeroMessage)

/-- The collecting loop of `getMessagesWithPagination`: walks the given
ids (newest first); every non-deleted top-level record is counted, and the
ones from position `startIndex` (of the counting) on are collected until
`resultSize` slots are filled.  `activeCount` and `acc` carry the loop
counters. -/
def paginateLoop (s : ContractState) (ids : List Nat) (startIndex resultSize : Nat)
    (activeCount : Nat) (acc : List Message) : List Message :=
  match ids with
  | [] => acc
  | id :: rest =>
    if ¬ acc.length < resultSize then acc
    else
      let m := s.messages id
      if m.replyToMessageId == 0 && !m.isDeleted then
        let acc' := if activeCount ≥ startIndex then acc ++ [m] else acc
        if activeCount + 1 ≥ startIndex + resultSize then acc'
        else paginateLoop s rest startIndex resultSize (activeCount + 1) acc'
      else paginateLoop s rest startIndex resultSize activeCount acc

/-- Mirror of the external view `getMessagesWithPagination`.  As in
`getLatestMessages`, slots of the result array the loop never fills remain
the zero message. -/
def getMessagesWithPagination (s : ContractState) (page pageSize : Nat) :
    Except String (List Message) :=
  if ¬ pageSize > 0 then .error "Page size must be greater than 0"
  else if ¬ pageSize ≤ s.maxReturnCount then .error "Page size too large"
  else
    let startIndex := page * pageSize
    if startIndex ≥ s.totalActiveMessages then .ok []
    else
      let resultSize :=
        if startIndex + pageSize > s.totalActiveMessages then
          s.totalActiveMessages - startIndex
        else pageSize
      let collected := paginateLoop s s.chronologicalMessageIds.reverse startIndex resultSize 0 []
      .ok (collected ++ List.replicate (resultSize - collected.length) zeroMessage)

/-- One successful public transaction of the contract.  The caller is a
nonzero address; a reverted call produces no step. -/
inductive Step : ContractState → ContractState → Prop
  | updateProfile {s s' : ContractState} {a ts : Nat} {nick av : String}
      (ha : a ≠ 0) (h : updateProfile s a ts nick av = .ok s') : Step s s'
  | updateAvatar {s s' : ContractState} {a : Nat} {av : String}
      (ha : a ≠ 0) (h : updateAvatar s a av = .ok s') : Step s s'
  | deactivateProfile {s s' : ContractState} {a : Nat}
      (ha : a ≠ 0) (h : deactivateProfile s a = .ok s') : Step s s'
  | postMessage {s s' : ContractState} {a ts : Nat} {c : String}
      (ha : a ≠ 0) (h : postMessage s a ts c = .ok s') : Step s s'
  | replyToMessage {s s' : ContractState} {a ts q : Nat} {c : String}
      (ha : a ≠ 0) (h : replyToMessage s a ts q c = .ok s') : Step s s'
  | markMessageAsDeleted {s s' : ContractState} {a mid : Nat}
      (ha : a ≠ 0) (h : markMessageAsDeleted s a mid = .ok s') : Step s s'
  | updateParameters {s s' : ContractState} {a p1 p2 p3 p4 : Nat}
      (ha : a ≠ 0) (h : updateParameters s a p1 p2 p3 p4 = .ok s') : Step s s'

/-- States reachable from a freshly deployed contract by public
transactions. -/
inductive Reachable : ContractState → Prop
  | init (deployer ts : Nat) (h : deployer ≠ 0) : Reachable (initState deployer ts)
  | step {s s' : ContractState} (hs : Reachable s) (h : Step s s') : Reachable s'

/-- Number of non-deleted records among a list of ids. -/
def countActive (msgs : Nat → Message) (l : List Nat) : Nat :=
  (l.filter (fun id => !(msgs id).isDeleted)).length

/-- Soft deletion of a record value. -/
def setDeleted (m : Message) : Message := { m with isDeleted := true }

theorem setDeleted_of_deleted {m : Message} (h : m.isDeleted = true) : setDeleted m = m := by
  cases m; simp_all [setDeleted]

theorem setF_eval {α β : Type} [DecidableEq α] (f : α → β) (k : α) (v : β) (x : α) :
    setF f k v x = if x = k then v else f x := rfl

theorem setF_self {α β : Type} [DecidableEq α] (f : α → β) (k : α) (v : β) :
    setF f k v k = v := by simp [setF]

theorem setF_ne {α β : Type} [DecidableEq α] (f : α → β) (k : α) (v : β) {x : α}
    (h : x ≠ k) : setF f k v x = f x := by simp [setF, h]

theorem mark_messages (s : ContractState) (i : Nat) :
    (markMessageAsDeletedInternal s i).messages = setF s.messages i (setDeleted (s.messages i)) := by
  unfold markMessageAsDeletedInternal; dsimp only
  split_ifs with h <;> try rfl
  funext j
  simp only [setF]
  split_ifs with hj
  · subst hj; exact (setDeleted_of_deleted h).symm
  · rfl

theorem mark_messageCount (s : ContractState) (i : Nat) :
    (markMessageAsDeletedInternal s i).messageCount = s.messageCount := by
  unfold markMessageAsDeletedInternal; dsimp only; split_ifs <;> rfl

theorem mark_chron (s : ContractState) (i : Nat) :
    (markMessageAsDeletedInternal s i).chronologicalMessageIds = s.chronologicalMessageIds := by
  unfold markMessageAsDeletedInternal; dsimp only; split_ifs <;> rfl

theorem mark_chronIdx (s : ContractState) (i : Nat) :
    (markMessageAsDeletedInternal s i).messageIdToChronologicalIndex = s.messageIdToChronologicalIndex := by
  unfold markMessageAsDeletedInternal; dsimp only; split_ifs <;> rfl

theorem mark_msgIdsByPeriod (s : ContractState) (i : Nat) :
    (markMessageAsDeletedInternal s i).messageIdsByPeriod = s.messageIdsByPeriod := by
  unfold markMessageAsDeletedInternal; dsimp only; split_ifs <;> rfl

theorem mark_periods (s : ContractState) (i : Nat) :
    (markMessageAsDeletedInternal s i).periods = s.periods := by
  unfold markMessageAsDeletedInternal; dsimp only; split_ifs <;> rfl

theorem mark_periodExists (s : ContractState) (i : Nat) :
    (markMessageAsDeletedInternal s i).periodExists = s.periodExists := by
  unfold markMessageAsDeletedInternal; dsimp only; split_ifs <;> rfl

theorem mark_senderIds (s : ContractState) (i : Nat) :
    (markMessageAsDeletedInternal s i).senderToMessageIds = s.senderToMessageIds := by
  unfold markMessageAsDeletedInternal; dsimp only; split_ifs <;> rfl

theorem mark_msgReplies (s : ContractState) (i : Nat) :
    (markMessageAsDeletedInternal s i).messageReplies = s.messageReplies := by
  unfold markMessageAsDeletedInternal; dsimp only; split_ifs <;> rfl

theorem mark_nickDir (s : ContractState) (i : Nat) :
    (markMessageAsDeletedInternal s i).nicknameToAddress = s.nicknameToAddress := by
  unfold markMessageAsDeletedInternal; dsimp only; split_ifs <;> rfl

theorem mark_profiles (s : ContractState) (i : Nat) :
    (markMessageAsDeletedInternal s i).addressToProfile = s.addressToProfile := by
  unfold markMessageAsDeletedInternal; dsimp only; split_ifs <;> rfl

theorem mark_lastMessageTime (s : ContractState) (i : Nat) :
    (markMessageAsDeletedInternal s i).lastMessageTime = s.lastMessageTime := by
  unfold markMessageAsDeletedInternal; dsimp only; split_ifs <;> rfl

theorem mark_maxMessageLength (s : ContractState) (i : Nat) :
    (markMessageAsDeletedInternal s i).maxMessageLength = s.maxMessageLength := by
  unfold markMessageAsDeletedInternal; dsimp only; split_ifs <;> rfl

theorem mark_messageCooldown (s : ContractState) (i : Nat) :
    (markMessageAsDeletedInternal s i).messageCooldown = s.messageCooldown := by
  unfold markMessageAsDeletedInternal; dsimp only; split_ifs <;> rfl

theorem mark_maxReturnCount (s : ContractState) (i : Nat) :
    (markMessageAsDeletedInternal s i).maxReturnCount = s.maxReturnCount := by
  unfold markMessageAsDeletedInternal; dsimp only; split_ifs <;> rfl

theorem mark_maxActiveMessages (s : ContractState) (i : Nat) :
    (markMessageAsDeletedInternal s i).maxActiveMessages = s.maxActiveMessages := by
  unfold markMessageAsDeletedInternal; dsimp only; split_ifs <;> rfl

theorem mark_owner (s : ContractState) (i : Nat) :
    (markMessageAsDeletedInternal s i).owner = s.owner := by
  unfold markMessageAsDeletedInternal; dsimp only; split_ifs <;> rfl

theorem mark_total (s : ContractState) (i : Nat) :
    (markMessageAsDeletedInternal s i).totalActiveMessages =
      if (s.messages i).isDeleted then s.totalActiveMessages else s.totalActiveMessages - 1 := by
  unfold markMessageAsDeletedInternal; dsimp only; split_ifs <;> rfl

theorem mark_senderCount (s : ContractState) (i : Nat) :
    (markMessageAsDeletedInternal s i).activeSenderMessageCount =
      if (s.messages i).isDeleted then s.activeSenderMessageCount
      else setF s.activeSenderMessageCount (s.messages i).sender (s.activeSenderMessageCount (s.messages i).sender - 1) := by
  unfold markMessageAsDeletedInternal; dsimp only; split_ifs <;> rfl

theorem mark_periodCount (s : ContractState) (i : Nat) :
    (markMessageAsDeletedInternal s i).activeMessageCountByPeriod =
      if (s.messages i).isDeleted then s.activeMessageCountByPeriod
      else if s.periodExists (i / PERIOD_SIZE) then
        setF s.activeMessageCountByPeriod (i / PERIOD_SIZE) (s.activeMessageCountByPeriod (i / PERIOD_SIZE) - 1)
      else s.activeMessageCountByPeriod := by
  unfold markMessageAsDeletedInternal; dsimp only; split_ifs <;> rfl

theorem mark_replyCount (s : ContractState) (i : Nat) :
    (markMessageAsDeletedInternal s i).activeReplyCount =
      if (s.messages i).isDeleted then s.activeReplyCount
      else if (s.messages i).replyToMessageId ≠ 0 then
        setF s.activeReplyCount (s.messages i).replyToMessageId (s.activeReplyCount (s.messages i).replyToMessageId - 1)
      else s.activeReplyCount := by
  unfold markMessageAsDeletedInternal; dsimp only; split_ifs <;> rfl

theorem mark_messages_ne (s : ContractState) (i : Nat) {j : Nat} (h : j ≠ i) :
    (markMessageAsDeletedInternal s i).messages j = s.messages j := by
  rw [mark_messages, setF_ne _ _ _ h]

theorem eligibleB_mark_ne (s : ContractState) (x : Nat) {y : Nat} (h : y ≠ x) :
    eligibleB (markMessageAsDeletedInternal s x) y = eligibleB s y := by
  unfold eligibleB; rw [mark_messages_ne s x h]

/-- Iterated soft deletion, the denotation of the eviction loop. -/
def foldMark (s : ContractState) (l : List Nat) : ContractState :=
  l.foldl markMessageAsDeletedInternal s

theorem foldMark_nil (s : ContractState) : foldMark s [] = s := rfl

theorem foldMark_cons (s : ContractState) (x : Nat) (xs : List Nat) :
    foldMark s (x :: xs) = foldMark (markMessageAsDeletedInternal s x) xs := rfl

theorem setDeleted_setDeleted (m : Message) : setDeleted (setDeleted m) = setDeleted m := rfl

theorem foldMark_messages (l : List Nat) (s : ContractState) (j : Nat) :
    (foldMark s l).messages j = if j ∈ l then setDeleted (s.messages j) else s.messages j := by
  induction l generalizing s with
  | nil => simp [foldMark]
  | cons x xs ih =>
    rw [foldMark_cons, ih]
    rw [mark_messages]
    by_cases hx : j = x
    · subst hx
      by_cases hmem : j ∈ xs <;>
        simp [hmem, setF_self, setDeleted_setDeleted, List.mem_cons]
    · rw [setF_ne _ _ _ hx]
      simp [List.mem_cons, hx]

theorem foldMark_chron (l : List Nat) (s : ContractState) :
    (foldMark s l).chronologicalMessageIds = s.chronologicalMessageIds := by
  induction l generalizing s with
  | nil => rfl
  | cons x xs ih => rw [foldMark_cons, ih, mark_chron]

theorem foldMark_chronIdx (l : List Nat) (s : ContractState) :
    (foldMark s l).messageIdToChronologicalIndex = s.messageIdToChronologicalIndex := by
  induction l generalizing s with
  | nil => rfl
  | cons x xs ih => rw [foldMark_cons, ih, mark_chronIdx]

theorem foldMark_messageCount (l : List Nat) (s : ContractState) :
    (foldMark s l).messageCount = s.messageCount := by
  induction l generalizing s with
  | nil => rfl
  | cons x xs ih => rw [foldMark_cons, ih, mark_messageCount]

theorem countActive_nil (msgs : Nat → Message) : countActive msgs [] = 0 := rfl

theorem countActive_cons (msgs : Nat → Message) (x : Nat) (xs : List Nat) :
    countActive msgs (x :: xs) =
      (if (msgs x).isDeleted then 0 else 1) + countActive msgs xs := by
  by_cases h : (msgs x).isDeleted <;>
    simp [countActive, List.filter_cons, h, Nat.add_comm]

theorem countActive_append (msgs : Nat → Message) (l1 l2 : List Nat) :
    countActive msgs (l1 ++ l2) = countActive msgs l1 + countActive msgs l2 := by
  simp [countActive, List.filter_append]

theorem countActive_congr {m1 m2 : Nat → Message} {l : List Nat}
    (h : ∀ id ∈ l, (m1 id).isDeleted = (m2 id).isDeleted) :
    countActive m1 l = countActive m2 l := by
  unfold countActive
  rw [List.filter_congr (fun x hx => by rw [h x hx])]

theorem countActive_setF_not_mem {msgs : Nat → Message} {i : Nat} {v : Message}
    {l : List Nat} (h : i ∉ l) : countActive (setF msgs i v) l = countActive msgs l := by
  refine countActive_congr fun id hid => ?_
  have : id ≠ i := by rintro rfl; exact h hid
  rw [setF_ne _ _ _ this]

theorem countActive_setDeleted_mem {msgs : Nat → Message} {i : Nat} {l : List Nat}
    (hnd : l.Nodup) (hmem : i ∈ l) (hlive : (msgs i).isDeleted = false) :
    countActive (setF msgs i (setDeleted (msgs i))) l + 1 = countActive msgs l := by
  induction l with
  | nil => cases hmem
  | cons x xs ih =>
    rcases List.nodup_cons.mp hnd with ⟨hx, hxs⟩
    rw [countActive_cons, countActive_cons]
    rcases List.mem_cons.mp hmem with h | h
    · subst h
      have h2 : countActive (setF msgs i (setDeleted (msgs i))) xs = countActive msgs xs :=
        countActive_setF_not_mem hx
      rw [setF_self, h2]
      simp [setDeleted, hlive]
      omega
    · have hix : x ≠ i := by rintro rfl; exact hx h
      rw [setF_ne _ _ _ hix]
      have := ih hxs h
      omega

theorem countActive_mark {s : ContractState} {i : Nat} {l : List Nat}
    (hnd : l.Nodup) (hmem : i ∈ l) (hlive : (s.messages i).isDeleted = false) :
    countActive (markMessageAsDeletedInternal s i).messages l + 1 = countActive s.messages l := by
  rw [mark_messages]
  exact countActive_setDeleted_mem hnd hmem hlive

theorem countActive_mark_not_mem {s : ContractState} {i : Nat} {l : List Nat}
    (h : i ∉ l) :
    countActive (markMessageAsDeletedInternal s i).messages l = countActive s.messages l := by
  rw [mark_messages]
  exact countActive_setF_not_mem h

/-- Characterization of the eviction scanning loop: on a duplicate-free id
list it deletes exactly the first `maxToDelete - deletedCount` ids that are
eligible in the entry state, its final state is the iterated deletion of
those ids, and its final count is the entry count plus the number
deleted. -/
theorem deleteOldestScan_spec (ids : List Nat) (s : ContractState) (dc mtd : Nat)
    (hnd : ids.Nodup) :
    (deleteOldestScan s ids dc mtd).2.2 = (ids.filter (eligibleB s)).take (mtd - dc) ∧
    (deleteOldestScan s ids dc mtd).1 = foldMark s ((ids.filter (eligibleB s)).take (mtd - dc)) ∧
    (deleteOldestScan s ids dc mtd).2.1 = dc + ((ids.filter (eligibleB s)).take (mtd - dc)).length := by
  induction ids generalizing s dc with
  | nil => simp [deleteOldestScan, foldMark]
  | cons x rest ih =>
    rcases List.nodup_cons.mp hnd with ⟨hx, hrest⟩
    by_cases hdc : dc < mtd
    · by_cases he : eligibleB s x = true
      · have hfilter : rest.filter (eligibleB (markMessageAsDeletedInternal s x)) =
            rest.filter (eligibleB s) := by
          refine List.filter_congr fun y hy => ?_
          exact eligibleB_mark_ne s x (by rintro rfl; exact hx hy)
        have htake : mtd - dc = (mtd - (dc + 1)) + 1 := by omega
        obtain ⟨ih1, ih2, ih3⟩ := ih (markMessageAsDeletedInternal s x) (dc + 1) hrest
        rw [hfilter] at ih1 ih2 ih3
        simp only [deleteOldestScan, if_pos hdc, if_pos he, List.filter_cons, he, if_pos,
          htake, List.take_succ_cons]
        refine ⟨by rw [ih1], by rw [ih2, foldMark_cons], by rw [ih3]; simp; omega⟩
      · obtain ⟨ih1, ih2, ih3⟩ := ih s dc hrest
        have he' : eligibleB s x = false := by
          cases h : eligibleB s x
          · rfl
          · exact absurd h he
        simp only [deleteOldestScan, if_pos hdc, he', if_neg, List.filter_cons, Bool.false_eq_true,
          ite_false]
        exact ⟨ih1, ih2, ih3⟩
    · have h0 : mtd - dc = 0 := by omega
      simp [deleteOldestScan, hdc, h0, foldMark]

/-- The value used as `maxToDelete` in `deleteOldestMessages`. -/
theorem deleteOldest_maxToDelete (count total : Nat) :
    (if count < total then count else total) = min count total := by
  split_ifs <;> omega

theorem deleteOldestTrace_eq (s : ContractState) (count : Nat)
    (hnd : (s.chronologicalMessageIds.drop 1).Nodup) :
    deleteOldestTrace s count =
      ((s.chronologicalMessageIds.drop 1).filter (eligibleB s)).take
        (min count s.totalActiveMessages) := by
  unfold deleteOldestTrace
  dsimp only
  by_cases hg : (decide (count = 0) || decide (s.totalActiveMessages = 0)) = true
  · rw [if_pos hg]
    have h' : count = 0 ∨ s.totalActiveMessages = 0 := by simpa using hg
    have hmin : min count s.totalActiveMessages = 0 := by omega
    rw [hmin]
    simp
  · rw [if_neg hg, (deleteOldestScan_spec _ s 0 _ hnd).1, Nat.sub_zero,
      deleteOldest_maxToDelete]

theorem insert_messageCount (s0 : ContractState) (a ts : Nat) (c : String) (rt : Nat)
    (ir : Bool) : (insertRecord s0 a ts c rt ir).messageCount = s0.messageCount + 1 := by
  unfold insertRecord; dsimp only; split_ifs <;> rfl

theorem insert_messages (s0 : ContractState) (a ts : Nat) (c : String) (rt : Nat)
    (ir : Bool) : (insertRecord s0 a ts c rt ir).messages =
      setF s0.messages s0.messageCount
        { sender := a, content := c, timestamp := ts
          nickname := (s0.addressToProfile a).nickname
          replyToMessageId := rt, isDeleted := false } := by
  unfold insertRecord; dsimp only; split_ifs <;> rfl

theorem insert_chron (s0 : ContractState) (a ts : Nat) (c : String) (rt : Nat)
    (ir : Bool) : (insertRecord s0 a ts c rt ir).chronologicalMessageIds =
      s0.chronologicalMessageIds ++ [s0.messageCount] := by
  unfold insertRecord; dsimp only; split_ifs <;> rfl

theorem insert_chronIdx (s0 : ContractState) (a ts : Nat) (c : String) (rt : Nat)
    (ir : Bool) : (insertRecord s0 a ts c rt ir).messageIdToChronologicalIndex =
      setF s0.messageIdToChronologicalIndex s0.messageCount
        ((s0.chronologicalMessageIds ++ [s0.messageCount]).length - 1) := by
  unfold insertRecord; dsimp only; split_ifs <;> rfl

theorem insert_periodExists (s0 : ContractState) (a ts : Nat) (c : String) (rt : Nat)
    (ir : Bool) (p : Nat) : (insertRecord s0 a ts c rt ir).periodExists p =
      if p = s0.messageCount / PERIOD_SIZE then true else s0.periodExists p := by
  unfold insertRecord; dsimp only
  split_ifs with h1 h2 h2 <;> simp_all [setF] <;> simp_all [eq_comm]

theorem insert_msgIdsByPeriod (s0 : ContractState) (a ts : Nat) (c : String) (rt : Nat)
    (ir : Bool) : (insertRecord s0 a ts c rt ir).messageIdsByPeriod =
      setF s0.messageIdsByPeriod (s0.messageCount / PERIOD_SIZE)
        (s0.messageIdsByPeriod (s0.messageCount / PERIOD_SIZE) ++ [s0.messageCount]) := by
  unfold insertRecord; dsimp only; split_ifs <;> rfl

theorem insert_periodCount (s0 : ContractState) (a ts : Nat) (c : String) (rt : Nat)
    (ir : Bool) : (insertRecord s0 a ts c rt ir).activeMessageCountByPeriod =
      setF s0.activeMessageCountByPeriod (s0.messageCount / PERIOD_SIZE)
        (s0.activeMessageCountByPeriod (s0.messageCount / PERIOD_SIZE) + 1) := by
  unfold insertRecord; dsimp only; split_ifs <;> rfl

theorem insert_senderIds (s0 : ContractState) (a ts : Nat) (c : String) (rt : Nat)
    (ir : Bool) : (insertRecord s0 a ts c rt ir).senderToMessageIds =
      setF s0.senderToMessageIds a (s0.senderToMessageIds a ++ [s0.messageCount]) := by
  unfold insertRecord; dsimp only; split_ifs <;> rfl

theorem insert_senderCount (s0 : ContractState) (a ts : Nat) (c : String) (rt : Nat)
    (ir : Bool) : (insertRecord s0 a ts c rt ir).activeSenderMessageCount =
      setF s0.activeSenderMessageCount a (s0.activeSenderMessageCount a + 1) := by
  unfold insertRecord; dsimp only; split_ifs <;> rfl

theorem insert_msgReplies (s0 : ContractState) (a ts : Nat) (c : String) (rt : Nat)
    (ir : Bool) : (insertRecord s0 a ts c rt ir).messageReplies =
      if ir then setF s0.messageReplies rt (s0.messageReplies rt ++ [s0.messageCount])
      else s0.messageReplies := by
  unfold insertRecord; dsimp only; split_ifs <;> simp_all

theorem insert_replyCount (s0 : ContractState) (a ts : Nat) (c : String) (rt : Nat)
    (ir : Bool) : (insertRecord s0 a ts c rt ir).activeReplyCount =
      if ir then setF s0.activeReplyCount rt (s0.activeReplyCount rt + 1)
      else s0.activeReplyCount := by
  unfold insertRecord; dsimp only; split_ifs <;> simp_all

theorem insert_total (s0 : ContractState) (a ts : Nat) (c : String) (rt : Nat)
    (ir : Bool) : (insertRecord s0 a ts c rt ir).totalActiveMessages =
      s0.totalActiveMessages + 1 := by
  unfold insertRecord; dsimp only; split_ifs <;> rfl

theorem insert_profiles (s0 : ContractState) (a ts : Nat) (c : String) (rt : Nat)
    (ir : Bool) : (insertRecord s0 a ts c rt ir).addressToProfile = s0.addressToProfile := by
  unfold insertRecord; dsimp only; split_ifs <;> rfl

theorem insert_nickDir (s0 : ContractState) (a ts : Nat) (c : String) (rt : Nat)
    (ir : Bool) : (insertRecord s0 a ts c rt ir).nicknameToAddress = s0.nicknameToAddress := by
  unfold insertRecord; dsimp only; split_ifs <;> rfl

theorem insert_owner (s0 : ContractState) (a ts : Nat) (c : String) (rt : Nat)
    (ir : Bool) : (insertRecord s0 a ts c rt ir).owner = s0.owner := by
  unfold insertRecord; dsimp only; split_ifs <;> rfl

theorem insert_maxMessageLength (s0 : ContractState) (a ts : Nat) (c : String) (rt : Nat)
    (ir : Bool) : (insertRecord s0 a ts c rt ir).maxMessageLength = s0.maxMessageLength := by
  unfold insertRecord; dsimp only; split_ifs <;> rfl

theorem insert_messageCooldown (s0 : ContractState) (a ts : Nat) (c : String) (rt : Nat)
    (ir : Bool) : (insertRecord s0 a ts c rt ir).messageCooldown = s0.messageCooldown := by
  unfold insertRecord; dsimp only; split_ifs <;> rfl

theorem insert_maxReturnCount (s0 : ContractState) (a ts : Nat) (c : String) (rt : Nat)
    (ir : Bool) : (insertRecord s0 a ts c rt ir).maxReturnCount = s0.maxReturnCount := by
  unfold insertRecord; dsimp only; split_ifs <;> rfl

theorem insert_maxActiveMessages (s0 : ContractState) (a ts : Nat) (c : String) (rt : Nat)
    (ir : Bool) : (insertRecord s0 a ts c rt ir).maxActiveMessages = s0.maxActiveMessages := by
  unfold insertRecord; dsimp only; split_ifs <;> rfl

theorem deleteOldest_eq_foldMark (s : ContractState) (count : Nat)
    (hnd : (s.chronologicalMessageIds.drop 1).Nodup) :
    deleteOldestMessages s count = foldMark s (deleteOldestTrace s count) := by
  unfold deleteOldestMessages deleteOldestTrace
  dsimp only
  by_cases hg : (decide (count = 0) || decide (s.totalActiveMessages = 0)) = true
  · rw [if_pos hg, if_pos hg]
    rfl
  · rw [if_neg hg, if_neg hg]
    obtain ⟨h1, h2, _⟩ := deleteOldestScan_spec (s.chronologicalMessageIds.drop 1) s 0
      (if count < s.totalActiveMessages then count else s.totalActiveMessages) hnd
    rw [h1, h2]

/-- Inductive invariant of reachable contract states.  Besides the
counter/index consistency properties of the specification (restricted to
nonzero parents, see below), it records the canonical shape of the
append-only indexes: the chronological array is exactly `[0, …,
messageCount-1]`, the period/sender lists are the evident filters of it,
and the reply list of every nonzero parent is the filter of records
replying to it.  The reply list of parent 0 admits no such canonical
shape: `replyToMessage 0 _` appends to it records whose
`replyToMessageId` is 0. -/
structure GoodState (s : ContractState) : Prop where
  count_pos : 0 < s.messageCount
  chron_eq : s.chronologicalMessageIds = List.range s.messageCount
  chronIdx_eq : ∀ id, id < s.messageCount → s.messageIdToChronologicalIndex id = id
  sentinel_deleted : (s.messages 0).isDeleted = true
  sentinel_reply : (s.messages 0).replyToMessageId = 0
  period_eq : ∀ p, s.messageIdsByPeriod p =
    (List.range s.messageCount).filter (fun id => id / PERIOD_SIZE == p)
  periodExists_eq : ∀ p, s.periodExists p = decide (p * PERIOD_SIZE < s.messageCount)
  sender_eq : ∀ a, s.senderToMessageIds a =
    (List.range s.messageCount).filter (fun id => decide (id ≠ 0) && ((s.messages id).sender == a))
  reply_eq : ∀ q, q ≠ 0 → s.messageReplies q =
    (List.range s.messageCount).filter (fun id => (s.messages id).replyToMessageId == q)
  total_eq : s.totalActiveMessages = countActive s.messages (List.range s.messageCount)
  periodCount_eq : ∀ p, s.activeMessageCountByPeriod p = countActive s.messages (s.messageIdsByPeriod p)
  senderCount_eq : ∀ a, s.activeSenderMessageCount a = countActive s.messages (s.senderToMessageIds a)
  replyCount_eq : ∀ q, q ≠ 0 → s.activeReplyCount q = countActive s.messages (s.messageReplies q)
  profile_valid : ∀ a, (s.addressToProfile a).nickname.length ≠ 0 →
    (s.addressToProfile a).nickname.length ≤ 32 ∧
    validateNickname (s.addressToProfile a).nickname = true
  active_nonempty : ∀ a, (s.addressToProfile a).isActive = true →
    (s.addressToProfile a).nickname.length ≠ 0
  dir_inv : ∀ nm a, s.nicknameToAddress nm = a → a ≠ 0 →
    (s.addressToProfile a).isActive = true ∧ (s.addressToProfile a).nickname = nm
  active_dir : ∀ a, a ≠ 0 → (s.addressToProfile a).isActive = true →
    s.nicknameToAddress ((s.addressToProfile a).nickname) = a

theorem goodState_init (d ts : Nat) : GoodState (initState d ts) := by
  constructor
  · exact Nat.zero_lt_one
  · rfl
  · intro id h
    have : id = 0 := Nat.lt_one_iff.mp h
    subst this
    rfl
  · rfl
  · rfl
  · intro p
    by_cases hp : p = 0
    · subst hp; rfl
    · show setF (fun _ => ([] : List Nat)) 0 [0] p =
        List.filter (fun id => id / PERIOD_SIZE == p) [0]
      rw [setF_ne _ _ _ hp]
      have h0 : ((0 : Nat) / PERIOD_SIZE == p) = false := by
        simp [PERIOD_SIZE]
        exact fun h => hp h.symm
      simp [List.filter_cons, h0]
      exact fun h => hp h.symm
  · intro p
    by_cases hp : p = 0
    · subst hp; rfl
    · show setF (fun _ => false) 0 true p = decide (p * PERIOD_SIZE < 1)
      rw [setF_ne _ _ _ hp]
      have h1 : ¬ p * PERIOD_SIZE < 1 := by
        have h2 : 1 ≤ p := Nat.one_le_iff_ne_zero.mpr hp
        have h3 : PERIOD_SIZE ≤ p * PERIOD_SIZE :=
          Nat.le_mul_of_pos_left _ (by omega)
        simp only [PERIOD_SIZE] at h3 ⊢
        omega
      simp [h1]
  · intro a
    show ([] : List Nat) = List.filter _ [0]
    simp [List.filter_cons]
  · intro q hq
    show ([] : List Nat) =
      List.filter (fun id => ((initState d ts).messages id).replyToMessageId == q) [0]
    have h0 : (((initState d ts).messages 0).replyToMessageId == q) = false := by
      have : ((initState d ts).messages 0).replyToMessageId = 0 := rfl
      rw [this]
      simp
      exact fun h => hq h.symm
    simp [List.filter_cons, h0]
  · show (0 : Nat) = countActive (initState d ts).messages [0]
    have h0 : ((initState d ts).messages 0).isDeleted = true := rfl
    simp [countActive, List.filter_cons, h0]
  · intro p
    by_cases hp : p = 0
    · subst hp
      show (0 : Nat) = countActive (initState d ts).messages [0]
      have h0 : ((initState d ts).messages 0).isDeleted = true := rfl
      simp [countActive, List.filter_cons, h0]
    · show (0 : Nat) = countActive (initState d ts).messages (setF (fun _ => []) 0 [0] p)
      rw [setF_ne _ _ _ hp]
      rfl
  · intro a
    rfl
  · intro q _
    rfl
  · intro a h
    exact absurd rfl h
  · intro a h
    exact Bool.noConfusion h
  · intro nm a h ha
    exact absurd h.symm ha
  · intro a _ h
    exact Bool.noConfusion h

theorem mark_msg_sender (s : ContractState) (i j : Nat) :
    ((markMessageAsDeletedInternal s i).messages j).sender = (s.messages j).sender := by
  rw [mark_messages, setF_eval]
  split_ifs with h
  · subst h; rfl
  · rfl

theorem mark_msg_replyTo (s : ContractState) (i j : Nat) :
    ((markMessageAsDeletedInternal s i).messages j).replyToMessageId =
      (s.messages j).replyToMessageId := by
  rw [mark_messages, setF_eval]
  split_ifs with h
  · subst h; rfl
  · rfl

theorem filter_range_nodup (n : Nat) (p : Nat → Bool) :
    ((List.range n).filter p).Nodup :=
  (List.nodup_range n).filter p

/-- Soft deletion of an existing record preserves the invariant. -/
theorem goodState_mark {s : ContractState} (hs : GoodState s) {i : Nat}
    (hi : i < s.messageCount) : GoodState (markMessageAsDeletedInternal s i) := by
  by_cases hdel : (s.messages i).isDeleted = true
  · have heq : markMessageAsDeletedInternal s i = s := by
      unfold markMessageAsDeletedInternal; rw [if_pos hdel]
    rw [heq]; exact hs
  · have hdel' : (s.messages i).isDeleted = false := by
      cases h : (s.messages i).isDeleted
      · rfl
      · exact absurd h hdel
    have hi0 : i ≠ 0 := by
      rintro rfl
      exact hdel hs.sentinel_deleted
    constructor
    · rw [mark_messageCount]; exact hs.count_pos
    · rw [mark_chron, mark_messageCount]; exact hs.chron_eq
    · intro id h
      rw [mark_messageCount] at h
      rw [mark_chronIdx]
      exact hs.chronIdx_eq id h
    · rw [mark_messages, setF_ne _ _ _ (Ne.symm hi0)]
      exact hs.sentinel_deleted
    · rw [mark_messages, setF_ne _ _ _ (Ne.symm hi0)]
      exact hs.sentinel_reply
    · intro p
      rw [mark_msgIdsByPeriod, mark_messageCount]
      exact hs.period_eq p
    · intro p
      rw [mark_periodExists, mark_messageCount]
      exact hs.periodExists_eq p
    · intro a
      rw [mark_senderIds, mark_messageCount, hs.sender_eq a]
      refine (List.filter_congr fun x _ => ?_).symm
      rw [mark_msg_sender]
    · intro q hq
      rw [mark_msgReplies, mark_messageCount, hs.reply_eq q hq]
      refine (List.filter_congr fun x _ => ?_).symm
      rw [mark_msg_replyTo]
    · rw [mark_total, if_neg hdel, mark_messageCount]
      have h1 := countActive_mark (s := s) (i := i) (l := List.range s.messageCount)
        (List.nodup_range s.messageCount) (List.mem_range.mpr hi) hdel'
      rw [hs.total_eq]
      omega
    · intro p
      have hpe : s.periodExists (i / PERIOD_SIZE) = true := by
        rw [hs.periodExists_eq]
        have : i / PERIOD_SIZE * PERIOD_SIZE ≤ i := Nat.div_mul_le_self i PERIOD_SIZE
        simp
        omega
      rw [mark_periodCount, if_neg hdel, if_pos hpe, mark_msgIdsByPeriod, setF_eval]
      split_ifs with hp
      · subst hp
        have hmem : i ∈ s.messageIdsByPeriod (i / PERIOD_SIZE) := by
          rw [hs.period_eq]
          simp [List.mem_filter, List.mem_range, hi]
        have hnd : (s.messageIdsByPeriod (i / PERIOD_SIZE)).Nodup := by
          rw [hs.period_eq]; exact filter_range_nodup _ _
        have h1 := countActive_mark (l := s.messageIdsByPeriod (i / PERIOD_SIZE)) hnd hmem hdel'
        rw [hs.periodCount_eq]
        omega
      · have hnmem : i ∉ s.messageIdsByPeriod p := by
          rw [hs.period_eq]
          intro hmem
          have := (List.mem_filter.mp hmem).2
          exact hp (beq_iff_eq.mp this).symm
        rw [countActive_mark_not_mem hnmem]
        exact hs.periodCount_eq p
    · intro a
      rw [mark_senderCount, if_neg hdel, mark_senderIds, setF_eval]
      split_ifs with hp
      · subst hp
        have hmem : i ∈ s.senderToMessageIds (s.messages i).sender := by
          rw [hs.sender_eq]
          simp [List.mem_filter, List.mem_range, hi, hi0]
        have hnd : (s.senderToMessageIds (s.messages i).sender).Nodup := by
          rw [hs.sender_eq]; exact filter_range_nodup _ _
        have h1 := countActive_mark (l := s.senderToMessageIds (s.messages i).sender) hnd hmem hdel'
        rw [hs.senderCount_eq]
        omega
      · have hnmem : i ∉ s.senderToMessageIds a := by
          rw [hs.sender_eq]
          intro hmem
          have h2 := (List.mem_filter.mp hmem).2
          have h3 := (Bool.and_eq_true _ _).mp h2
          exact hp (beq_iff_eq.mp h3.2).symm
        rw [countActive_mark_not_mem hnmem]
        exact hs.senderCount_eq a
    · intro q hq
      rw [mark_msgReplies, mark_replyCount, if_neg hdel]
      by_cases hrt : (s.messages i).replyToMessageId ≠ 0
      · rw [if_pos hrt, setF_eval]
        split_ifs with hp
        · rw [← hp]
          have hmem : i ∈ s.messageReplies q := by
            rw [hs.reply_eq q hq]
            refine List.mem_filter.mpr ⟨List.mem_range.mpr hi, ?_⟩
            rw [← hp]
            exact beq_self_eq_true q
          have hnd : (s.messageReplies q).Nodup := by
            rw [hs.reply_eq q hq]; exact filter_range_nodup _ _
          have h1 := countActive_mark (l := s.messageReplies q) hnd hmem hdel'
          have h2 := hs.replyCount_eq q hq
          omega
        · have hnmem : i ∉ s.messageReplies q := by
            rw [hs.reply_eq q hq]
            intro hmem
            have := (List.mem_filter.mp hmem).2
            exact hp (beq_iff_eq.mp this).symm
          rw [countActive_mark_not_mem hnmem]
          exact hs.replyCount_eq q hq
      · rw [if_neg hrt]
        have hrt0 : (s.messages i).replyToMessageId = 0 := by
          by_contra h
          exact hrt h
        have hnmem : i ∉ s.messageReplies q := by
          rw [hs.reply_eq q hq]
          intro hmem
          have := (List.mem_filter.mp hmem).2
          rw [hrt0] at this
          exact hq (beq_iff_eq.mp this).symm
        rw [countActive_mark_not_mem hnmem]
        exact hs.replyCount_eq q hq
    · intro a
      rw [mark_profiles]
      exact hs.profile_valid a
    · intro a
      rw [mark_profiles]
      exact hs.active_nonempty a
    · intro nm a
      rw [mark_nickDir, mark_profiles]
      exact hs.dir_inv nm a
    · intro a
      rw [mark_nickDir, mark_profiles]
      exact hs.active_dir a

theorem goodState_foldMark {s : ContractState} {l : List Nat} (hs : GoodState s)
    (hl : ∀ x ∈ l, x < s.messageCount) : GoodState (foldMark s l) := by
  induction l generalizing s with
  | nil => exact hs
  | cons x xs ih =>
    rw [foldMark_cons]
    refine ih (goodState_mark hs (hl x (List.mem_cons_self x xs))) ?_
    intro y hy
    rw [mark_messageCount]
    exact hl y (List.mem_cons_of_mem x hy)

theorem chron_tail_nodup {s : ContractState} (hs : GoodState s) :
    (s.chronologicalMessageIds.drop 1).Nodup := by
  rw [hs.chron_eq]
  exact (List.nodup_range s.messageCount).sublist (List.drop_sublist 1 _)

theorem trace_mem_lt {s : ContractState} (hs : GoodState s) {count x : Nat}
    (hx : x ∈ deleteOldestTrace s count) : x < s.messageCount := by
  rw [deleteOldestTrace_eq s count (chron_tail_nodup hs)] at hx
  have h0 : x ∈ (s.chronologicalMessageIds.drop 1).filter (eligibleB s) :=
    List.take_subset _ _ hx
  have h1 : x ∈ s.chronologicalMessageIds.drop 1 := List.mem_of_mem_filter h0
  have h2 : x ∈ s.chronologicalMessageIds := List.drop_subset 1 _ h1
  rw [hs.chron_eq] at h2
  exact List.mem_range.mp h2

theorem goodState_deleteOldest {s : ContractState} (hs : GoodState s) (count : Nat) :
    GoodState (deleteOldestMessages s count) := by
  rw [deleteOldest_eq_foldMark s count (chron_tail_nodup hs)]
  exact goodState_foldMark hs fun x hx => trace_mem_lt hs hx

theorem countActive_singleton (msgs : Nat → Message) (x : Nat) :
    countActive msgs [x] = if (msgs x).isDeleted then 0 else 1 := by
  rw [countActive_cons, countActive_nil]
  exact Nat.add_zero _

theorem filter_singleton_pos {p : Nat → Bool} {x : Nat} (h : p x = true) :
    List.filter p [x] = [x] := by simp [List.filter_cons, h]

theorem filter_singleton_neg {p : Nat → Bool} {x : Nat} (h : p x = false) :
    List.filter p [x] = [] := by simp [List.filter_cons, h]

/-- Insertion of a fresh record preserves the invariant, provided a
non-reply carries parent id 0 (as in both creating functions). -/
theorem goodState_insert {s0 : ContractState} (hs : GoodState s0) (a ts : Nat)
    (c : String) (rt : Nat) (ir : Bool) (hrt : ir = false → rt = 0) :
    GoodState (insertRecord s0 a ts c rt ir) := by
  have hn0 : 0 < s0.messageCount := hs.count_pos
  have hlen : s0.chronologicalMessageIds.length = s0.messageCount := by
    rw [hs.chron_eq, List.length_range]
  have hnr : s0.messageCount ∉ List.range s0.messageCount := by simp
  have hperiod_not : ∀ p, s0.messageCount ∉ s0.messageIdsByPeriod p := by
    intro p hmem
    rw [hs.period_eq] at hmem
    exact absurd (List.mem_range.mp (List.mem_of_mem_filter hmem)) (lt_irrefl _)
  have hsender_not : ∀ b, s0.messageCount ∉ s0.senderToMessageIds b := by
    intro b hmem
    rw [hs.sender_eq] at hmem
    exact absurd (List.mem_range.mp (List.mem_of_mem_filter hmem)) (lt_irrefl _)
  have hreply_not : ∀ q, q ≠ 0 → s0.messageCount ∉ s0.messageReplies q := by
    intro q hq hmem
    rw [hs.reply_eq q hq] at hmem
    exact absurd (List.mem_range.mp (List.mem_of_mem_filter hmem)) (lt_irrefl _)
  have hmsg_lt : ∀ id, id < s0.messageCount →
      (insertRecord s0 a ts c rt ir).messages id = s0.messages id := by
    intro id hid
    rw [insert_messages, setF_ne _ _ _ (Nat.ne_of_lt hid)]
  have hmsg_new : (insertRecord s0 a ts c rt ir).messages s0.messageCount =
      { sender := a, content := c, timestamp := ts
        nickname := (s0.addressToProfile a).nickname
        replyToMessageId := rt, isDeleted := false } := by
    rw [insert_messages, setF_self]
  constructor
  · rw [insert_messageCount]; omega
  · rw [insert_chron, insert_messageCount, hs.chron_eq, List.range_succ]
  · intro id h
    rw [insert_messageCount] at h
    rw [insert_chronIdx, setF_eval]
    split_ifs with hid
    · subst hid
      rw [List.length_append, hlen]
      rfl
    · exact hs.chronIdx_eq id (by omega)
  · rw [insert_messages, setF_ne _ _ _ (by omega : (0 : Nat) ≠ s0.messageCount)]
    exact hs.sentinel_deleted
  · rw [insert_messages, setF_ne _ _ _ (by omega : (0 : Nat) ≠ s0.messageCount)]
    exact hs.sentinel_reply
  · intro p
    rw [insert_msgIdsByPeriod, insert_messageCount, setF_eval, List.range_succ,
      List.filter_append]
    split_ifs with hp
    · rw [hp, hs.period_eq]
      simp [List.filter_cons]
    · rw [hs.period_eq p]
      have h0 : (s0.messageCount / PERIOD_SIZE == p) = false := by
        simp
        exact fun h => hp h.symm
      simp [List.filter_cons, h0]
  · intro p
    rw [insert_periodExists, insert_messageCount]
    split_ifs with hp
    · rw [hp]
      have h1 := Nat.div_mul_le_self s0.messageCount PERIOD_SIZE
      simp
      omega
    · rw [hs.periodExists_eq p, decide_eq_decide]
      have hne : p * PERIOD_SIZE ≠ s0.messageCount := by
        intro h
        apply hp
        rw [← h]
        simp only [PERIOD_SIZE]
        omega
      simp only [PERIOD_SIZE] at hne ⊢
      omega
  · intro b
    rw [insert_senderIds, setF_eval, insert_messageCount, List.range_succ,
      List.filter_append]
    have hcongr : (List.range s0.messageCount).filter
        (fun id => decide (id ≠ 0) && (((insertRecord s0 a ts c rt ir).messages id).sender == b)) =
        (List.range s0.messageCount).filter (fun id => decide (id ≠ 0) && ((s0.messages id).sender == b)) := by
      refine List.filter_congr fun x hx => ?_
      rw [hmsg_lt x (List.mem_range.mp hx)]
    rw [hcongr]
    split_ifs with hb
    · rw [hb, hs.sender_eq a]
      have h1 : (decide (s0.messageCount ≠ 0) &&
          (((insertRecord s0 a ts c rt ir).messages s0.messageCount).sender == a)) = true := by
        rw [hmsg_new]
        simp
        omega
      rw [filter_singleton_pos h1]
    · rw [hs.sender_eq b]
      have h1 : (decide (s0.messageCount ≠ 0) &&
          (((insertRecord s0 a ts c rt ir).messages s0.messageCount).sender == b)) = false := by
        rw [hmsg_new]
        simp
        intro _
        exact fun h => hb h.symm
      rw [filter_singleton_neg h1, List.append_nil]
  · intro q hq
    rw [insert_msgReplies, insert_messageCount, List.range_succ, List.filter_append]
    have hcongr : (List.range s0.messageCount).filter
        (fun id => ((insertRecord s0 a ts c rt ir).messages id).replyToMessageId == q) =
        (List.range s0.messageCount).filter (fun id => (s0.messages id).replyToMessageId == q) := by
      refine List.filter_congr fun x hx => ?_
      rw [hmsg_lt x (List.mem_range.mp hx)]
    rw [hcongr]
    by_cases hir : ir = true
    · rw [if_pos hir, setF_eval]
      split_ifs with hqrt
      · have h1 : (((insertRecord s0 a ts c rt ir).messages s0.messageCount).replyToMessageId == q) = true := by
          rw [hmsg_new]
          simp [hqrt]
        rw [filter_singleton_pos (p := fun id => ((insertRecord s0 a ts c rt ir).messages id).replyToMessageId == q) h1,
          ← hqrt, hs.reply_eq q hq]
      · have h1 : (((insertRecord s0 a ts c rt ir).messages s0.messageCount).replyToMessageId == q) = false := by
          rw [hmsg_new]
          simp
          exact fun h => hqrt h.symm
        rw [hs.reply_eq q hq,
          filter_singleton_neg (p := fun id => ((insertRecord s0 a ts c rt ir).messages id).replyToMessageId == q) h1,
          List.append_nil]
    · rw [if_neg hir]
      have hrt0 : rt = 0 := hrt (Bool.eq_false_iff.mpr hir)
      have h1 : (((insertRecord s0 a ts c rt ir).messages s0.messageCount).replyToMessageId == q) = false := by
        rw [hmsg_new]
        simp [hrt0]
        exact fun h => hq h.symm
      rw [hs.reply_eq q hq,
        filter_singleton_neg (p := fun id => ((insertRecord s0 a ts c rt ir).messages id).replyToMessageId == q) h1,
        List.append_nil]
  · rw [insert_total, insert_messageCount, List.range_succ, countActive_append]
    have h1 : countActive (insertRecord s0 a ts c rt ir).messages (List.range s0.messageCount) =
        countActive s0.messages (List.range s0.messageCount) := by
      rw [insert_messages]
      exact countActive_setF_not_mem hnr
    have h2 : countActive (insertRecord s0 a ts c rt ir).messages [s0.messageCount] = 1 := by
      rw [countActive_singleton, hmsg_new]
      simp
    rw [h1, h2, hs.total_eq]
  · intro p
    rw [insert_periodCount, insert_msgIdsByPeriod, setF_eval, setF_eval]
    split_ifs with hp
    · rw [countActive_append]
      have h1 : countActive (insertRecord s0 a ts c rt ir).messages
          (s0.messageIdsByPeriod (s0.messageCount / PERIOD_SIZE)) =
          countActive s0.messages (s0.messageIdsByPeriod (s0.messageCount / PERIOD_SIZE)) := by
        rw [insert_messages]
        exact countActive_setF_not_mem (hperiod_not _)
      have h2 : countActive (insertRecord s0 a ts c rt ir).messages [s0.messageCount] = 1 := by
        rw [countActive_singleton, hmsg_new]
        simp
      rw [h1, h2, hs.periodCount_eq]
    · have h1 : countActive (insertRecord s0 a ts c rt ir).messages (s0.messageIdsByPeriod p) =
          countActive s0.messages (s0.messageIdsByPeriod p) := by
        rw [insert_messages]
        exact countActive_setF_not_mem (hperiod_not _)
      rw [h1, hs.periodCount_eq]
  · intro b
    rw [insert_senderCount, insert_senderIds, setF_eval, setF_eval]
    split_ifs with hb
    · rw [countActive_append]
      have h1 : countActive (insertRecord s0 a ts c rt ir).messages (s0.senderToMessageIds a) =
          countActive s0.messages (s0.senderToMessageIds a) := by
        rw [insert_messages]
        exact countActive_setF_not_mem (hsender_not _)
      have h2 : countActive (insertRecord s0 a ts c rt ir).messages [s0.messageCount] = 1 := by
        rw [countActive_singleton, hmsg_new]
        simp
      rw [h1, h2, hs.senderCount_eq]
    · have h1 : countActive (insertRecord s0 a ts c rt ir).messages (s0.senderToMessageIds b) =
          countActive s0.messages (s0.senderToMessageIds b) := by
        rw [insert_messages]
        exact countActive_setF_not_mem (hsender_not _)
      rw [h1, hs.senderCount_eq]
  · intro q hq
    rw [insert_replyCount, insert_msgReplies]
    by_cases hir : ir = true
    · rw [if_pos hir, if_pos hir, setF_eval, setF_eval]
      split_ifs with hqrt
      · rw [countActive_append]
        have h1 : countActive (insertRecord s0 a ts c rt ir).messages (s0.messageReplies rt) =
            countActive s0.messages (s0.messageReplies rt) := by
          rw [insert_messages]
          refine countActive_setF_not_mem ?_
          rw [← hqrt]
          exact hreply_not q hq
        have h2 : countActive (insertRecord s0 a ts c rt ir).messages [s0.messageCount] = 1 := by
          rw [countActive_singleton, hmsg_new]
          simp
        rw [h1, h2, ← hqrt, hs.replyCount_eq q hq]
      · have h1 : countActive (insertRecord s0 a ts c rt ir).messages (s0.messageReplies q) =
            countActive s0.messages (s0.messageReplies q) := by
          rw [insert_messages]
          exact countActive_setF_not_mem (hreply_not q hq)
        rw [h1, hs.replyCount_eq q hq]
    · rw [if_neg hir, if_neg hir]
      have h1 : countActive (insertRecord s0 a ts c rt ir).messages (s0.messageReplies q) =
          countActive s0.messages (s0.messageReplies q) := by
        rw [insert_messages]
        exact countActive_setF_not_mem (hreply_not q hq)
      rw [h1, hs.replyCount_eq q hq]
  · intro b
    rw [insert_profiles]
    exact hs.profile_valid b
  · intro b
    rw [insert_profiles]
    exact hs.active_nonempty b
  · intro nm b
    rw [insert_nickDir, insert_profiles]
    exact hs.dir_inv nm b
  · intro b
    rw [insert_nickDir, insert_profiles]
    exact hs.active_dir b

theorem goodState_createRecord {s : ContractState} (hs : GoodState s) (a ts : Nat)
    (c : String) (rt : Nat) (ir : Bool) (hrt : ir = false → rt = 0) :
    GoodState (createRecord s a ts c rt ir) := by
  unfold createRecord
  split_ifs with h
  · exact goodState_insert (goodState_deleteOldest hs 1) a ts c rt ir hrt
  · exact goodState_insert hs a ts c rt ir hrt

theorem goodState_postMessage {s s' : ContractState} {a ts : Nat} {c : String}
    (hs : GoodState s) (h : postMessage s a ts c = .ok s') : GoodState s' := by
  unfold postMessage at h
  split_ifs at h <;> simp at h
  subst h
  exact goodState_createRecord hs a ts c 0 false fun _ => rfl

theorem goodState_replyToMessage {s s' : ContractState} {a ts q : Nat} {c : String}
    (hs : GoodState s) (h : replyToMessage s a ts q c = .ok s') : GoodState s' := by
  unfold replyToMessage at h
  split_ifs at h <;> simp at h
  subst h
  exact goodState_createRecord hs a ts c q true fun hf => Bool.noConfusion hf

theorem goodState_markMessageAsDeleted {s s' : ContractState} {a mid : Nat}
    (hs : GoodState s) (h : markMessageAsDeleted s a mid = .ok s') : GoodState s' := by
  unfold markMessageAsDeleted at h
  split_ifs at h with h1 h2 h3 <;> simp at h
  subst h
  exact goodState_mark hs h1

theorem goodState_params_only {s : ContractState} (hs : GoodState s)
    (p1 p2 p3 p4 : Nat) :
    GoodState { s with maxMessageLength := p1, messageCooldown := p2
                       maxReturnCount := p3, maxActiveMessages := p4 } := by
  cases hs
  constructor <;> assumption

theorem goodState_updateParameters {s s' : ContractState} {a p1 p2 p3 p4 : Nat}
    (hs : GoodState s) (h : updateParameters s a p1 p2 p3 p4 = .ok s') : GoodState s' := by
  unfold updateParameters at h
  dsimp only at h
  split_ifs at h with h1 h2 <;> simp at h
  · subst h
    exact goodState_deleteOldest (goodState_params_only hs p1 p2 p3 p4) _
  · subst h
    exact goodState_params_only hs p1 p2 p3 p4

/-- Overwriting one profile row while keeping its nickname and activity
status preserves the invariant. -/
theorem goodState_setProfile {s : ContractState} (hs : GoodState s) (a : Nat)
    (p : UserProfile) (hnick : p.nickname = (s.addressToProfile a).nickname)
    (hact : p.isActive = (s.addressToProfile a).isActive) :
    GoodState { s with addressToProfile := setF s.addressToProfile a p } := by
  constructor
  · exact hs.count_pos
  · exact hs.chron_eq
  · exact hs.chronIdx_eq
  · exact hs.sentinel_deleted
  · exact hs.sentinel_reply
  · exact hs.period_eq
  · exact hs.periodExists_eq
  · exact hs.sender_eq
  · exact hs.reply_eq
  · exact hs.total_eq
  · exact hs.periodCount_eq
  · exact hs.senderCount_eq
  · exact hs.replyCount_eq
  · intro b
    show (if b = a then p else s.addressToProfile b).nickname.length ≠ 0 →
      (if b = a then p else s.addressToProfile b).nickname.length ≤ 32 ∧
      validateNickname (if b = a then p else s.addressToProfile b).nickname = true
    split_ifs with hb
    · rw [hnick]
      exact hs.profile_valid a
    · exact hs.profile_valid b
  · intro b
    show (if b = a then p else s.addressToProfile b).isActive = true →
      (if b = a then p else s.addressToProfile b).nickname.length ≠ 0
    split_ifs with hb
    · rw [hact, hnick]
      exact hs.active_nonempty a
    · exact hs.active_nonempty b
  · intro nm b hdir hb
    show (if b = a then p else s.addressToProfile b).isActive = true ∧
      (if b = a then p else s.addressToProfile b).nickname = nm
    have hdir' : s.nicknameToAddress nm = b := hdir
    split_ifs with hb2
    · rw [hact, hnick, ← hb2]
      exact hs.dir_inv nm b hdir' hb
    · exact hs.dir_inv nm b hdir' hb
  · intro b hb hact2
    show s.nicknameToAddress ((if b = a then p else s.addressToProfile b).nickname) = b
    have hact2' : (if b = a then p else s.addressToProfile b).isActive = true := hact2
    split_ifs at hact2' ⊢ with hb2
    · rw [hact] at hact2'
      rw [hnick, hb2]
      exact hs.active_dir a (hb2 ▸ hb) hact2'
    · exact hs.active_dir b hb hact2'

theorem goodState_updateAvatar {s s' : ContractState} {a : Nat} {av : String}
    (hs : GoodState s) (h : updateAvatar s a av = .ok s') : GoodState s' := by
  unfold updateAvatar at h
  dsimp only at h
  split_ifs at h <;> simp at h
  subst h
  exact goodState_setProfile hs a _ rfl rfl

/-- Replacing the profile table and handle directory wholesale preserves
the invariant as soon as the four profile-side properties hold of the new
tables; the message store is untouched. -/
theorem goodState_profileDir {s : ContractState} (hs : GoodState s)
    (P : Nat → UserProfile) (D : String → Nat)
    (hpv : ∀ b, (P b).nickname.length ≠ 0 →
      (P b).nickname.length ≤ 32 ∧ validateNickname (P b).nickname = true)
    (han : ∀ b, (P b).isActive = true → (P b).nickname.length ≠ 0)
    (hdi : ∀ nm b, D nm = b → b ≠ 0 → (P b).isActive = true ∧ (P b).nickname = nm)
    (had : ∀ b, b ≠ 0 → (P b).isActive = true → D ((P b).nickname) = b) :
    GoodState { s with addressToProfile := P, nicknameToAddress := D } := by
  constructor
  · exact hs.count_pos
  · exact hs.chron_eq
  · exact hs.chronIdx_eq
  · exact hs.sentinel_deleted
  · exact hs.sentinel_reply
  · exact hs.period_eq
  · exact hs.periodExists_eq
  · exact hs.sender_eq
  · exact hs.reply_eq
  · exact hs.total_eq
  · exact hs.periodCount_eq
  · exact hs.senderCount_eq
  · exact hs.replyCount_eq
  · exact hpv
  · exact han
  · exact hdi
  · exact had

theorem goodState_deactivateProfile {s s' : ContractState} {a : Nat}
    (hs : GoodState s) (h : deactivateProfile s a = .ok s') : GoodState s' := by
  unfold deactivateProfile at h
  dsimp only at h
  split_ifs at h with h1 h2 <;> simp at h <;> subst h
  -- branch 1: the directory entry still points to the caller and is removed
  · refine goodState_profileDir hs _ _ ?_ ?_ ?_ ?_
    · intro b
      rw [setF_eval]
      split_ifs with hb
      · exact hs.profile_valid a
      · exact hs.profile_valid b
    · intro b
      rw [setF_eval]
      split_ifs with hb
      · intro hfalse
        exact absurd hfalse (by simp)
      · exact hs.active_nonempty b
    · intro nm b hdir hb
      rw [setF_eval] at hdir
      rw [setF_eval]
      split_ifs at hdir with hnm
      · exact absurd hdir.symm hb
      · have hold := hs.dir_inv nm b hdir hb
        split_ifs with hb2
        · exact absurd (hb2 ▸ hold.2).symm hnm
        · exact hold
    · intro b hb hact
      rw [setF_eval] at hact
      split_ifs at hact with hb2
      have hold := hs.active_dir b hb hact
      have hP : setF s.addressToProfile a
          { s.addressToProfile a with isActive := false } b = s.addressToProfile b :=
        setF_ne _ _ _ hb2
      rw [hP, setF_eval]
      split_ifs with hk
      · rw [hk] at hold
        exact absurd (hold.symm.trans h2) hb2
      · exact hold
  -- branch 2: the directory entry does not point to the caller
  · refine goodState_profileDir hs _ _ ?_ ?_ ?_ ?_
    · intro b
      rw [setF_eval]
      split_ifs with hb
      · exact hs.profile_valid a
      · exact hs.profile_valid b
    · intro b
      rw [setF_eval]
      split_ifs with hb
      · intro hfalse
        exact absurd hfalse (by simp)
      · exact hs.active_nonempty b
    · intro nm b hdir hb
      have hold := hs.dir_inv nm b hdir hb
      rw [setF_eval]
      split_ifs with hb2
      · exfalso
        apply h2
        rw [hb2] at hdir hold
        rw [hold.2]
        exact hdir
      · exact hold
    · intro b hb hact
      rw [setF_eval] at hact
      split_ifs at hact with hb2
      rw [setF_eval, if_neg hb2]
      exact hs.active_dir b hb hact

theorem goodState_updateProfile {s s' : ContractState} {a ts : Nat} {n av : String}
    (hs : GoodState s) (h : updateProfile s a ts n av = .ok s') : GoodState s' := by
  unfold updateProfile at h
  dsimp only at h
  split_ifs at h with h1 h2 h3 h4 h5 <;> simp at h <;> subst h
  -- the previous nickname is released, then the profile row and the new
  -- directory entry are written
  · have hval : validateNickname n = true := h3
    have hdir_or : s.nicknameToAddress n = 0 ∨ s.nicknameToAddress n = a := by
      rcases not_and_or.mp h4 with hx | hx
      · exact Or.inl (not_not.mp hx)
      · exact Or.inr (not_not.mp hx)
    refine goodState_profileDir hs _ _ ?_ ?_ ?_ ?_
    · intro b
      rw [setF_eval]
      split_ifs with hb
      · intro _
        refine ⟨?_, ?_⟩
        · show n.length ≤ 32
          omega
        · show validateNickname n = true
          exact hval
      · exact hs.profile_valid b
    · intro b
      rw [setF_eval]
      split_ifs with hb
      · intro _
        exact h1
      · exact hs.active_nonempty b
    · intro nm b hdir hb
      rw [setF_eval] at hdir
      split_ifs at hdir with hnm
      · have hba : b = a := hdir.symm
        rw [setF_eval, if_pos hba]
        exact ⟨rfl, hnm.symm⟩
      · rw [setF_eval] at hdir
        split_ifs at hdir with holdnm
        · exact absurd hdir.symm hb
        · have holdinv := hs.dir_inv nm b hdir hb
          have hba : b ≠ a := by
            intro hba
            apply holdnm
            rw [hba] at holdinv
            exact holdinv.2.symm
          rw [setF_eval, if_neg hba]
          exact holdinv
    · intro b hb hact
      rw [setF_eval] at hact
      split_ifs at hact with hba
      · have hPb : setF s.addressToProfile a
            { nickname := n, avatarCode := av, isActive := true, lastNicknameUpdate := ts } b =
            { nickname := n, avatarCode := av, isActive := true, lastNicknameUpdate := ts } := by
          rw [setF_eval, if_pos hba]
        rw [hPb]
        show setF (setF s.nicknameToAddress ((s.addressToProfile a).nickname) 0) n a n = b
        rw [setF_self]
        exact hba.symm
      · have holdad := hs.active_dir b hb hact
        have hPb : setF s.addressToProfile a
            { nickname := n, avatarCode := av, isActive := true, lastNicknameUpdate := ts } b =
            s.addressToProfile b := setF_ne _ _ _ hba
        rw [hPb]
        have hkn : (s.addressToProfile b).nickname ≠ n := by
          intro hkn
          rw [hkn] at holdad
          rcases hdir_or with h0 | ha
          · exact hb (holdad.symm.trans h0)
          · exact hba (holdad.symm.trans ha)
        rw [setF_eval, if_neg hkn, setF_eval]
        split_ifs with hko
        · rw [hko] at holdad
          exact absurd (holdad.symm.trans h5.2) hba
        · exact holdad
  -- the caller held no releasable nickname; only the new entry is written
  · have hval : validateNickname n = true := h3
    have hdir_or : s.nicknameToAddress n = 0 ∨ s.nicknameToAddress n = a := by
      rcases not_and_or.mp h4 with hx | hx
      · exact Or.inl (not_not.mp hx)
      · exact Or.inr (not_not.mp hx)
    refine goodState_profileDir hs _ _ ?_ ?_ ?_ ?_
    · intro b
      rw [setF_eval]
      split_ifs with hb
      · intro _
        refine ⟨?_, ?_⟩
        · show n.length ≤ 32
          omega
        · show validateNickname n = true
          exact hval
      · exact hs.profile_valid b
    · intro b
      rw [setF_eval]
      split_ifs with hb
      · intro _
        exact h1
      · exact hs.active_nonempty b
    · intro nm b hdir hb
      rw [setF_eval] at hdir
      split_ifs at hdir with hnm
      · have hba : b = a := hdir.symm
        rw [setF_eval, if_pos hba]
        exact ⟨rfl, hnm.symm⟩
      · have holdinv := hs.dir_inv nm b hdir hb
        have hba : b ≠ a := by
          intro hba
          apply h5
          rw [hba] at holdinv hdir
          refine ⟨Nat.pos_of_ne_zero ?_, ?_⟩
          · rw [holdinv.2]
            have := hs.active_nonempty a holdinv.1
            rw [holdinv.2] at this
            exact this
          · rw [holdinv.2]
            exact hdir
        rw [setF_eval, if_neg hba]
        exact holdinv
    · intro b hb hact
      rw [setF_eval] at hact
      split_ifs at hact with hba
      · have hPb : setF s.addressToProfile a
            { nickname := n, avatarCode := av, isActive := true, lastNicknameUpdate := ts } b =
            { nickname := n, avatarCode := av, isActive := true, lastNicknameUpdate := ts } := by
          rw [setF_eval, if_pos hba]
        rw [hPb]
        show setF s.nicknameToAddress n a n = b
        rw [setF_self]
        exact hba.symm
      · have holdad := hs.active_dir b hb hact
        have hPb : setF s.addressToProfile a
            { nickname := n, avatarCode := av, isActive := true, lastNicknameUpdate := ts } b =
            s.addressToProfile b := setF_ne _ _ _ hba
        rw [hPb]
        have hkn : (s.addressToProfile b).nickname ≠ n := by
          intro hkn
          rw [hkn] at holdad
          rcases hdir_or with h0 | ha
          · exact hb (holdad.symm.trans h0)
          · exact hba (holdad.symm.trans ha)
        rw [setF_eval, if_neg hkn]
        exact holdad

/-- Every successful public transaction preserves the invariant. -/
theorem goodState_step {s s' : ContractState} (hs : GoodState s) (h : Step s s') :
    GoodState s' := by
  cases h with
  | updateProfile _ h => exact goodState_updateProfile hs h
  | updateAvatar _ h => exact goodState_updateAvatar hs h
  | deactivateProfile _ h => exact goodState_deactivateProfile hs h
  | postMessage _ h => exact goodState_postMessage hs h
  | replyToMessage _ h => exact goodState_replyToMessage hs h
  | markMessageAsDeleted _ h => exact goodState_markMessageAsDeleted hs h
  | updateParameters _ h => exact goodState_updateParameters hs h

/-- The invariant holds of every reachable state. -/
theorem reachable_good {s : ContractState} (hr : Reachable s) : GoodState s := by
  induction hr with
  | init d ts _ => exact goodState_init d ts
  | step _ h ih => exact goodState_step ih h

theorem scan_messageCount (ids : List Nat) (s : ContractState) (dc mtd : Nat) :
    (deleteOldestScan s ids dc mtd).1.messageCount = s.messageCount := by
  induction ids generalizing s dc with
  | nil => rfl
  | cons x rest ih =>
    unfold deleteOldestScan
    split_ifs with h1 h2
    · dsimp only
      rw [ih, mark_messageCount]
    · exact ih s dc
    · rfl

theorem scan_msgReplies (ids : List Nat) (s : ContractState) (dc mtd : Nat) :
    (deleteOldestScan s ids dc mtd).1.messageReplies = s.messageReplies := by
  induction ids generalizing s dc with
  | nil => rfl
  | cons x rest ih =>
    unfold deleteOldestScan
    split_ifs with h1 h2
    · dsimp only
      rw [ih, mark_msgReplies]
    · exact ih s dc
    · rfl

theorem scan_lastMessageTime (ids : List Nat) (s : ContractState) (dc mtd : Nat) :
    (deleteOldestScan s ids dc mtd).1.lastMessageTime = s.lastMessageTime := by
  induction ids generalizing s dc with
  | nil => rfl
  | cons x rest ih =>
    unfold deleteOldestScan
    split_ifs with h1 h2
    · dsimp only
      rw [ih, mark_lastMessageTime]
    · exact ih s dc
    · rfl

theorem scan_profiles (ids : List Nat) (s : ContractState) (dc mtd : Nat) :
    (deleteOldestScan s ids dc mtd).1.addressToProfile = s.addressToProfile := by
  induction ids generalizing s dc with
  | nil => rfl
  | cons x rest ih =>
    unfold deleteOldestScan
    split_ifs with h1 h2
    · dsimp only
      rw [ih, mark_profiles]
    · exact ih s dc
    · rfl

/-- The scanning loop soft-deletes only top-level records: it changes no
reply's record and no reply counter. -/
theorem scan_reply_frame (ids : List Nat) (s : ContractState) (dc mtd : Nat) :
    (∀ id, (s.messages id).replyToMessageId ≠ 0 →
      (deleteOldestScan s ids dc mtd).1.messages id = s.messages id) ∧
    (deleteOldestScan s ids dc mtd).1.activeReplyCount = s.activeReplyCount := by
  induction ids generalizing s dc with
  | nil => exact ⟨fun _ _ => rfl, rfl⟩
  | cons x rest ih =>
    unfold deleteOldestScan
    split_ifs with h1 h2
    · dsimp only
      have hx0 : (s.messages x).replyToMessageId = 0 := by
        have := (Bool.and_eq_true _ _).mp h2
        exact beq_iff_eq.mp this.2
      obtain ⟨ih1, ih2⟩ := ih (markMessageAsDeletedInternal s x) (dc + 1)
      constructor
      · intro id hid
        have hxne : id ≠ x := by
          rintro rfl
          exact hid hx0
        have hmark : (markMessageAsDeletedInternal s x).messages id = s.messages id :=
          mark_messages_ne s x hxne
        rw [ih1 id (by rw [hmark]; exact hid), hmark]
      · rw [ih2, mark_replyCount]
        split_ifs with hdel hrt
        · rfl
        · exact absurd hrt (by rw [hx0]; simp)
        · rfl
    · exact ih s dc
    · exact ⟨fun _ _ => rfl, rfl⟩

/-- Every record after the scan is either untouched or soft-deleted in
place. -/
theorem scan_messages_or (ids : List Nat) (s : ContractState) (dc mtd : Nat) :
    ∀ j, (deleteOldestScan s ids dc mtd).1.messages j = s.messages j ∨
      (deleteOldestScan s ids dc mtd).1.messages j = setDeleted (s.messages j) := by
  induction ids generalizing s dc with
  | nil => exact fun _ => Or.inl rfl
  | cons x rest ih =>
    intro j
    unfold deleteOldestScan
    split_ifs with h1 h2
    · dsimp only
      have hmark : (markMessageAsDeletedInternal s x).messages j = s.messages j ∨
          (markMessageAsDeletedInternal s x).messages j = setDeleted (s.messages j) := by
        rw [mark_messages, setF_eval]
        split_ifs with hj
        · subst hj; exact Or.inr rfl
        · exact Or.inl rfl
      rcases ih (markMessageAsDeletedInternal s x) (dc + 1) j with h | h <;>
        rcases hmark with h' | h'
      · exact Or.inl (h.trans h')
      · exact Or.inr (h.trans h')
      · exact Or.inr (by rw [h, h'])
      · exact Or.inr (by rw [h, h', setDeleted_setDeleted])
    · exact ih s dc j
    · exact Or.inl rfl

theorem deleteOldest_messageCount (s : ContractState) (count : Nat) :
    (deleteOldestMessages s count).messageCount = s.messageCount := by
  unfold deleteOldestMessages
  split_ifs with h h2
  · rfl
  · exact scan_messageCount _ _ _ _
  · exact scan_messageCount _ _ _ _

theorem deleteOldest_msgReplies (s : ContractState) (count : Nat) :
    (deleteOldestMessages s count).messageReplies = s.messageReplies := by
  unfold deleteOldestMessages
  split_ifs with h h2
  · rfl
  · exact scan_msgReplies _ _ _ _
  · exact scan_msgReplies _ _ _ _

theorem deleteOldest_lastMessageTime (s : ContractState) (count : Nat) :
    (deleteOldestMessages s count).lastMessageTime = s.lastMessageTime := by
  unfold deleteOldestMessages
  split_ifs with h h2
  · rfl
  · exact scan_lastMessageTime _ _ _ _
  · exact scan_lastMessageTime _ _ _ _

theorem deleteOldest_profiles (s : ContractState) (count : Nat) :
    (deleteOldestMessages s count).addressToProfile = s.addressToProfile := by
  unfold deleteOldestMessages
  split_ifs with h h2
  · rfl
  · exact scan_profiles _ _ _ _
  · exact scan_profiles _ _ _ _

theorem deleteOldest_reply_frame (s : ContractState) (count : Nat) :
    (∀ id, (s.messages id).replyToMessageId ≠ 0 →
      (deleteOldestMessages s count).messages id = s.messages id) ∧
    (deleteOldestMessages s count).activeReplyCount = s.activeReplyCount := by
  unfold deleteOldestMessages
  split_ifs with h h2
  · exact ⟨fun _ _ => rfl, rfl⟩
  · exact scan_reply_frame _ _ _ _
  · exact scan_reply_frame _ _ _ _

theorem deleteOldest_messages_or (s : ContractState) (count : Nat) (j : Nat) :
    (deleteOldestMessages s count).messages j = s.messages j ∨
    (deleteOldestMessages s count).messages j = setDeleted (s.messages j) := by
  unfold deleteOldestMessages
  split_ifs with h h2
  · exact Or.inl rfl
  · exact scan_messages_or _ _ _ _ j
  · exact scan_messages_or _ _ _ _ j

/-- Extracts the state of a successful call; falls back to a fresh
deployment (used only on calls separately shown to succeed). -/
def runOrInit (r : Except String ContractState) : ContractState :=
  match r with
  | .ok s => s
  | .error _ => initState 1 0

/-- Concrete trace: claim handle, reply to the sentinel id 0, then delete
that reply-to-0 record. -/
def cex1State1 : ContractState := runOrInit (updateProfile (initState 7 0) 5 10 "alice" "")

def cex1State2 : ContractState := runOrInit (replyToMessage cex1State1 5 100 0 "hi")

def cex1State3 : ContractState := runOrInit (markMessageAsDeleted cex1State2 5 1)

/-- C1, counterexample: after the public operations `updateProfile`,
`replyToMessage 0 _` and `markMessageAsDeleted 1`, the counter
`activeReplyCount[0]` is 1 while `messageReplies[0] = [1]` holds no
non-deleted id at all: record 1 has `replyToMessageId = 0`, so
`_markMessageAsDeleted` does not decrement `activeReplyCount[0]`. -/
theorem C1_counterexample :
    updateProfile (initState 7 0) 5 10 "alice" "" = .ok cex1State1 ∧
    replyToMessage cex1State1 5 100 0 "hi" = .ok cex1State2 ∧
    markMessageAsDeleted cex1State2 5 1 = .ok cex1State3 ∧
    cex1State3.messageReplies 0 = [1] ∧
    cex1State3.activeReplyCount 0 = 1 ∧
    countActive cex1State3.messages (cex1State3.messageReplies 0) = 0 :=
  ⟨rfl, rfl, rfl, rfl, rfl, rfl⟩

/-- C1, amended: in every reachable state every period counter, sender
counter and global counter agrees with the number of non-deleted records
in its index, and the reply counter of every nonzero parent agrees with
the number of non-deleted ids in that parent's reply list.  (The reply
counter of the sentinel parent 0 is exempt: replies to id 0 carry
`replyToMessageId = 0` and their deletion skips the decrement, see
`C1_counterexample`.) -/
theorem C1_amended_counters {s : ContractState} (hr : Reachable s) :
    (∀ p, s.activeMessageCountByPeriod p = countActive s.messages (s.messageIdsByPeriod p)) ∧
    (∀ a, s.activeSenderMessageCount a = countActive s.messages (s.senderToMessageIds a)) ∧
    (∀ q, q ≠ 0 → s.activeReplyCount q = countActive s.messages (s.messageReplies q)) ∧
    s.totalActiveMessages = countActive s.messages (List.range s.messageCount) := by
  have hs := reachable_good hr
  exact ⟨hs.periodCount_eq, hs.senderCount_eq, hs.replyCount_eq, hs.total_eq⟩

/-- Witness for `C1_amended_counters` at a freshly deployed contract. -/
theorem C1_amended_counters_witness :
    (∀ p, (initState 7 0).activeMessageCountByPeriod p =
      countActive (initState 7 0).messages ((initState 7 0).messageIdsByPeriod p)) ∧
    (∀ a, (initState 7 0).activeSenderMessageCount a =
      countActive (initState 7 0).messages ((initState 7 0).senderToMessageIds a)) ∧
    (∀ q, q ≠ 0 → (initState 7 0).activeReplyCount q =
      countActive (initState 7 0).messages ((initState 7 0).messageReplies q)) ∧
    (initState 7 0).totalActiveMessages =
      countActive (initState 7 0).messages (List.range (initState 7 0).messageCount) :=
  C1_amended_counters (Reachable.init 7 0 (by decide))

/-- C4: running the Eviction Engine, directly or through
`updateParameters`, never changes the deleted flag of any reply and never
changes any `activeReplyCount` entry. -/
theorem C4_eviction_reply_frame (s : ContractState) (count : Nat) :
    (∀ id, (s.messages id).replyToMessageId ≠ 0 →
      ((deleteOldestMessages s count).messages id).isDeleted = (s.messages id).isDeleted) ∧
    (∀ q, (deleteOldestMessages s count).activeReplyCount q = s.activeReplyCount q) ∧
    (∀ a p1 p2 p3 p4 s', updateParameters s a p1 p2 p3 p4 = .ok s' →
      (∀ id, (s.messages id).replyToMessageId ≠ 0 →
        (s'.messages id).isDeleted = (s.messages id).isDeleted) ∧
      ∀ q, s'.activeReplyCount q = s.activeReplyCount q) := by
  refine ⟨?_, ?_, ?_⟩
  · intro id hid
    rw [(deleteOldest_reply_frame s count).1 id hid]
  · intro q
    rw [(deleteOldest_reply_frame s count).2]
  · intro a p1 p2 p3 p4 s' h
    unfold updateParameters at h
    dsimp only at h
    split_ifs at h with ho hgt <;> simp at h <;> subst h
    · constructor
      · intro id hid
        have := (deleteOldest_reply_frame
          { s with maxMessageLength := p1, messageCooldown := p2
                   maxReturnCount := p3, maxActiveMessages := p4 }
          (s.totalActiveMessages - p4)).1 id hid
        rw [this]
      · intro q
        have := (deleteOldest_reply_frame
          { s with maxMessageLength := p1, messageCooldown := p2
                   maxReturnCount := p3, maxActiveMessages := p4 }
          (s.totalActiveMessages - p4)).2
        rw [this]
    · exact ⟨fun _ _ => rfl, fun _ => rfl⟩

/-- Concrete trace used by several witnesses: a profile, a top-level post
(id 1) and a reply (id 2) to it. -/
def wState1 : ContractState := runOrInit (updateProfile (initState 7 0) 5 10 "alice" "")

def wState2 : ContractState := runOrInit (postMessage wState1 5 100 "a")

def wState3 : ContractState := runOrInit (replyToMessage wState2 5 200 1 "r")

/-- Witness for `C4_eviction_reply_frame` at a state holding the reply
record 2, with an eviction of up to 5 records. -/
theorem scan_maxActive (ids : List Nat) (s : ContractState) (dc mtd : Nat) :
    (deleteOldestScan s ids dc mtd).1.maxActiveMessages = s.maxActiveMessages := by
  induction ids generalizing s dc with
  | nil => rfl
  | cons x rest ih =>
    unfold deleteOldestScan
    split_ifs with h1 h2
    · dsimp only
      rw [ih, mark_maxActiveMessages]
    · exact ih s dc
    · rfl

theorem deleteOldest_maxActive (s : ContractState) (count : Nat) :
    (deleteOldestMessages s count).maxActiveMessages = s.maxActiveMessages := by
  unfold deleteOldestMessages
  split_ifs with h h2
  · rfl
  · exact scan_maxActive _ _ _ _
  · exact scan_maxActive _ _ _ _

theorem foldMark_total {l : List Nat} (hnd : l.Nodup) :
    ∀ s : ContractState, (∀ x ∈ l, (s.messages x).isDeleted = false) →
    (foldMark s l).totalActiveMessages = s.totalActiveMessages - l.length := by
  induction l with
  | nil => intro s _; rfl
  | cons x xs ih =>
    intro s hlive
    rcases List.nodup_cons.mp hnd with ⟨hx, hxs⟩
    have hxlive := hlive x (List.mem_cons_self x xs)
    have h1 : (markMessageAsDeletedInternal s x).totalActiveMessages =
        s.totalActiveMessages - 1 := by
      rw [mark_total, if_neg (by rw [hxlive]; simp)]
    have h2 : ∀ y ∈ xs, ((markMessageAsDeletedInternal s x).messages y).isDeleted = false := by
      intro y hy
      rw [mark_messages_ne s x (by rintro rfl; exact hx hy)]
      exact hlive y (List.mem_cons_of_mem x hy)
    rw [foldMark_cons, ih hxs _ h2, h1]
    simp only [List.length_cons]
    omega

theorem trace_eligible {s : ContractState} {count x : Nat} (hs : GoodState s)
    (hx : x ∈ deleteOldestTrace s count) : eligibleB s x = true := by
  rw [deleteOldestTrace_eq _ _ (chron_tail_nodup hs)] at hx
  exact (List.mem_filter.mp (List.take_subset _ _ hx)).2

theorem trace_nodup {s : ContractState} (hs : GoodState s) (count : Nat) :
    (deleteOldestTrace s count).Nodup := by
  rw [deleteOldestTrace_eq _ _ (chron_tail_nodup hs)]
  exact ((chron_tail_nodup hs).filter _).sublist (List.take_sublist _ _)

/-- The eviction pass removes exactly the records of its trace from the
active total. -/
theorem deleteOldest_total {s : ContractState} (hs : GoodState s) (count : Nat) :
    (deleteOldestMessages s count).totalActiveMessages =
      s.totalActiveMessages - (deleteOldestTrace s count).length := by
  rw [deleteOldest_eq_foldMark _ _ (chron_tail_nodup hs)]
  refine foldMark_total (trace_nodup hs count) s fun x hx => ?_
  have h1 := trace_eligible hs hx
  unfold eligibleB at h1
  have h2 := ((Bool.and_eq_true _ _).mp h1).1
  simpa using h2

/-- No record of the store is a reply. -/
def NoReplies (s : ContractState) : Prop :=
  ∀ id, (s.messages id).replyToMessageId = 0

theorem mem_drop_one_range {id n : Nat} (h1 : id < n) (h2 : id ≠ 0) :
    id ∈ (List.range n).drop 1 := by
  cases n with
  | zero => omega
  | succ k =>
    rw [List.range_succ_eq_map]
    simp only [List.drop_succ_cons, List.drop_zero]
    obtain ⟨m, rfl⟩ := Nat.exists_eq_succ_of_ne_zero h2
    exact List.mem_map.mpr ⟨m, List.mem_range.mpr (by omega), rfl⟩

/-- In a reply-free state with at least one active record, the single-slot
eviction triggered by a create deletes exactly one record. -/
theorem traceLen_one {s : ContractState} (hs : GoodState s) (hnr : NoReplies s)
    (hpos : 1 ≤ s.totalActiveMessages) : (deleteOldestTrace s 1).length = 1 := by
  rw [deleteOldestTrace_eq s 1 (chron_tail_nodup hs)]
  have hmin : min 1 s.totalActiveMessages = 1 := by omega
  rw [hmin, List.length_take]
  have hex : ∃ id, id ∈ (s.chronologicalMessageIds.drop 1).filter (eligibleB s) := by
    have htot := hs.total_eq
    have hne : (List.range s.messageCount).filter
        (fun id => !(s.messages id).isDeleted) ≠ [] := by
      intro hemp
      rw [countActive, hemp] at htot
      simp at htot
      omega
    obtain ⟨id, hid⟩ := List.exists_mem_of_ne_nil _ hne
    have hid1 := List.mem_filter.mp hid
    have hlive : (s.messages id).isDeleted = false := by
      have := hid1.2
      simpa using this
    have hid0 : id ≠ 0 := by
      rintro rfl
      rw [hs.sentinel_deleted] at hlive
      exact Bool.noConfusion hlive
    refine ⟨id, List.mem_filter.mpr ⟨?_, ?_⟩⟩
    · rw [hs.chron_eq]
      exact mem_drop_one_range (List.mem_range.mp hid1.1) hid0
    · unfold eligibleB
      rw [hlive, hnr id]
      rfl
  obtain ⟨id, hid⟩ := hex
  have hlen : 0 < ((s.chronologicalMessageIds.drop 1).filter (eligibleB s)).length :=
    List.length_pos.mpr (List.ne_nil_of_mem hid)
  omega

/-- A straight-line sequence of `postMessage` transactions. -/
def runPosts (s : ContractState) : List (Nat × Nat × String) → Except String ContractState
  | [] => .ok s
  | (a, ts, c) :: rest => (postMessage s a ts c).bind fun s1 => runPosts s1 rest

theorem createRecord_messageCount (s : ContractState) (a ts : Nat) (c : String)
    (rt : Nat) (ir : Bool) :
    (createRecord s a ts c rt ir).messageCount = s.messageCount + 1 := by
  unfold createRecord
  split_ifs with h
  · rw [insert_messageCount, deleteOldest_messageCount]
  · rw [insert_messageCount]

/-- One public transaction step leaves every pre-existing record either
untouched or soft-deleted in place, and never shrinks the id space. -/
theorem step_messages_or {s s' : ContractState} (h : Step s s') :
    s.messageCount ≤ s'.messageCount ∧
    ∀ j, j < s.messageCount →
      s'.messages j = s.messages j ∨ s'.messages j = setDeleted (s.messages j) := by
  cases h with
  | updateProfile ha h =>
    unfold updateProfile at h
    dsimp only at h
    split_ifs at h <;> simp at h <;> subst h <;>
      exact ⟨le_refl _, fun j _ => Or.inl rfl⟩
  | updateAvatar ha h =>
    unfold updateAvatar at h
    dsimp only at h
    split_ifs at h <;> simp at h
    subst h
    exact ⟨le_refl _, fun j _ => Or.inl rfl⟩
  | deactivateProfile ha h =>
    unfold deactivateProfile at h
    dsimp only at h
    split_ifs at h <;> simp at h <;> subst h <;>
      exact ⟨le_refl _, fun j _ => Or.inl rfl⟩
  | markMessageAsDeleted ha h =>
    unfold markMessageAsDeleted at h
    split_ifs at h with h1 h2 h3 <;> simp at h
    subst h
    refine ⟨by rw [mark_messageCount], fun j _ => ?_⟩
    rw [mark_messages, setF_eval]
    split_ifs with hj
    · exact Or.inr (by rw [hj])
    · exact Or.inl rfl
  | updateParameters ha h =>
    unfold updateParameters at h
    dsimp only at h
    split_ifs at h with h1 h2 <;> simp at h <;> subst h
    · exact ⟨by rw [deleteOldest_messageCount], fun j _ => deleteOldest_messages_or _ _ j⟩
    · exact ⟨le_refl _, fun j _ => Or.inl rfl⟩
  | postMessage ha h =>
    unfold postMessage at h
    split_ifs at h <;> simp at h
    subst h
    refine ⟨by rw [createRecord_messageCount]; omega, fun j hj => ?_⟩
    unfold createRecord
    split_ifs with he
    · rw [insert_messages, setF_eval]
      have hne : j ≠ (deleteOldestMessages s 1).messageCount := by
        rw [deleteOldest_messageCount]; omega
      rw [if_neg hne]
      exact deleteOldest_messages_or s 1 j
    · rw [insert_messages, setF_eval]
      have hne : j ≠ s.messageCount := by omega
      rw [if_neg hne]
      exact Or.inl rfl
  | replyToMessage ha h =>
    unfold replyToMessage at h
    split_ifs at h <;> simp at h
    subst h
    refine ⟨by rw [createRecord_messageCount]; omega, fun j hj => ?_⟩
    unfold createRecord
    split_ifs with he
    · rw [insert_messages, setF_eval]
      have hne : j ≠ (deleteOldestMessages s 1).messageCount := by
        rw [deleteOldest_messageCount]; omega
      rw [if_neg hne]
      exact deleteOldest_messages_or s 1 j
    · rw [insert_messages, setF_eval]
      have hne : j ≠ s.messageCount := by omega
      rw [if_neg hne]
      exact Or.inl rfl

theorem rtg_messages_or {s s' : ContractState}
    (h : Relation.ReflTransGen Step s s') :
    s.messageCount ≤ s'.messageCount ∧
    ∀ j, j < s.messageCount →
      s'.messages j = s.messages j ∨ s'.messages j = setDeleted (s.messages j) := by
  induction h with
  | refl => exact ⟨le_refl _, fun j _ => Or.inl rfl⟩
  | tail hst hstep ih =>
    obtain ⟨ih1, ih2⟩ := ih
    obtain ⟨h1, h2⟩ := step_messages_or hstep
    refine ⟨le_trans ih1 h1, fun j hj => ?_⟩
    rcases h2 j (lt_of_lt_of_le hj ih1) with he2 | he2 <;>
      rcases ih2 j hj with he | he
    · exact Or.inl (he2.trans he)
    · exact Or.inr (he2.trans he)
    · exact Or.inr (by rw [he2, he])
    · exact Or.inr (by rw [he2, he, setDeleted_setDeleted])

/-- C8: fields of an existing record other than the deleted flag are never
changed by any later sequence of public operations, and the deleted flag
never reverts from true to false. -/
theorem C8_records_immutable {s s' : ContractState} (hr : Reachable s)
    (hsteps : Relation.ReflTransGen Step s s') :
    ∀ id, id < s.messageCount →
      ((s'.messages id).sender = (s.messages id).sender ∧
       (s'.messages id).content = (s.messages id).content ∧
       (s'.messages id).timestamp = (s.messages id).timestamp ∧
       (s'.messages id).nickname = (s.messages id).nickname ∧
       (s'.messages id).replyToMessageId = (s.messages id).replyToMessageId) ∧
      ((s.messages id).isDeleted = true → (s'.messages id).isDeleted = true) := by
  intro id hid
  rcases (rtg_messages_or hsteps).2 id hid with he | he
  · rw [he]
    exact ⟨⟨rfl, rfl, rfl, rfl, rfl⟩, fun h => h⟩
  · rw [he]
    exact ⟨⟨rfl, rfl, rfl, rfl, rfl⟩, fun _ => rfl⟩

theorem wState1_reachable : Reachable wState1 :=
  Reachable.step (Reachable.init 7 0 (by decide))
    (Step.updateProfile (by decide)
      (show updateProfile (initState 7 0) 5 10 "alice" "" = .ok wState1 from rfl))

theorem wState2_reachable : Reachable wState2 :=
  Reachable.step wState1_reachable
    (Step.postMessage (by decide)
      (show postMessage wState1 5 100 "a" = .ok wState2 from rfl))

theorem wState3_reachable : Reachable wState3 :=
  Reachable.step wState2_reachable
    (Step.replyToMessage (by decide)
      (show replyToMessage wState2 5 200 1 "r" = .ok wState3 from rfl))

/-- Witness for `C8_records_immutable`: record 1 of `wState2` across the
reply step leading to `wState3`. -/
theorem C8_records_immutable_witness :
    1 < wState2.messageCount ∧
    (((wState3.messages 1).sender = (wState2.messages 1).sender ∧
      (wState3.messages 1).content = (wState2.messages 1).content ∧
      (wState3.messages 1).timestamp = (wState2.messages 1).timestamp ∧
      (wState3.messages 1).nickname = (wState2.messages 1).nickname ∧
      (wState3.messages 1).replyToMessageId = (wState2.messages 1).replyToMessageId) ∧
     ((wState2.messages 1).isDeleted = true → (wState3.messages 1).isDeleted = true)) :=
  ⟨by decide, C8_records_immutable wState2_reachable
    (Relation.ReflTransGen.single (Step.replyToMessage (by decide)
      (show replyToMessage wState2 5 200 1 "r" = .ok wState3 from rfl))) 1 (by decide)⟩

/-- C10: with record 0 reserved as sentinel, `replyToMessage 0 _` from any
author with an active profile, a valid body and an elapsed cooldown
succeeds; the new record carries `replyToMessageId = 0` and is live (so
the query surface treats it as top-level and the eviction guard accepts
it), while it is still appended to `messageReplies[0]` and
`activeReplyCount[0]` is incremented. -/
theorem C10_reply_to_sentinel {s : ContractState} (hr : Reachable s) {a ts : Nat}
    {body : String}
    (hnick : (s.addressToProfile a).nickname.length ≠ 0)
    (hact : (s.addressToProfile a).isActive = true)
    (hb1 : body.length ≠ 0) (hb2 : body.length ≤ s.maxMessageLength)
    (hcd : s.messageCooldown ≤ ts - s.lastMessageTime a) :
    ∃ s', replyToMessage s a ts 0 body = .ok s' ∧
      (s'.messages s.messageCount).replyToMessageId = 0 ∧
      (s'.messages s.messageCount).isDeleted = false ∧
      eligibleB s' s.messageCount = true ∧
      s'.messageReplies 0 = s.messageReplies 0 ++ [s.messageCount] ∧
      s'.activeReplyCount 0 = s.activeReplyCount 0 + 1 := by
  have hs := reachable_good hr
  have h0count : ((if s.totalActiveMessages ≥ s.maxActiveMessages
      then deleteOldestMessages s 1 else s)).messageCount = s.messageCount := by
    split_ifs with h
    · exact deleteOldest_messageCount s 1
    · rfl
  have hok : replyToMessage s a ts 0 body = .ok (createRecord s a ts body 0 true) := by
    unfold replyToMessage
    rw [if_neg (not_not_intro hs.count_pos), if_neg hb1,
      if_neg (by omega : ¬ body.length > s.maxMessageLength),
      if_neg (by omega : ¬ ts - s.lastMessageTime a < s.messageCooldown),
      if_neg hnick, if_neg (by rw [hact]; simp)]
  have hmsg : (createRecord s a ts body 0 true).messages s.messageCount =
      { sender := a, content := body, timestamp := ts
        nickname := (((if s.totalActiveMessages ≥ s.maxActiveMessages
          then deleteOldestMessages s 1 else s)).addressToProfile a).nickname
        replyToMessageId := 0, isDeleted := false } := by
    unfold createRecord
    rw [insert_messages, setF_eval, if_pos h0count.symm]
  refine ⟨createRecord s a ts body 0 true, hok, ?_, ?_, ?_, ?_, ?_⟩
  · rw [hmsg]
  · rw [hmsg]
  · unfold eligibleB
    rw [hmsg]
    rfl
  · unfold createRecord
    rw [insert_msgReplies]
    simp only [if_true]
    rw [setF_self, h0count]
    split_ifs with h
    · rw [deleteOldest_msgReplies]
    · rfl
  · unfold createRecord
    rw [insert_replyCount]
    simp only [if_true]
    rw [setF_self]
    split_ifs with h
    · rw [(deleteOldest_reply_frame s 1).2]
    · rfl

/-- Witness for `C10_reply_to_sentinel` at state `wState1` (author 5 has
an active profile, cooldown elapsed at time 100). -/
theorem C10_reply_to_sentinel_witness :
    (wState1.addressToProfile 5).nickname.length ≠ 0 ∧
    (wState1.addressToProfile 5).isActive = true ∧
    ("hi".length ≠ 0 ∧ "hi".length ≤ wState1.maxMessageLength) ∧
    wState1.messageCooldown ≤ 100 - wState1.lastMessageTime 5 ∧
    ∃ s', replyToMessage wState1 5 100 0 "hi" = .ok s' ∧
      (s'.messages wState1.messageCount).replyToMessageId = 0 ∧
      (s'.messages wState1.messageCount).isDeleted = false ∧
      eligibleB s' wState1.messageCount = true ∧
      s'.messageReplies 0 = wState1.messageReplies 0 ++ [wState1.messageCount] ∧
      s'.activeReplyCount 0 = wState1.activeReplyCount 0 + 1 :=
  ⟨by decide, by decide, ⟨by decide, by decide⟩, by decide,
    C10_reply_to_sentinel wState1_reachable (by decide) (by decide) (by decide)
      (by decide) (by decide)⟩

theorem C4_eviction_reply_frame_witness :
    (wState3.messages 2).replyToMessageId ≠ 0 ∧
    ((deleteOldestMessages wState3 5).messages 2).isDeleted = (wState3.messages 2).isDeleted ∧
    ∀ q, (deleteOldestMessages wState3 5).activeReplyCount q = wState3.activeReplyCount q :=
  ⟨by decide, (C4_eviction_reply_frame wState3 5).1 2 (by decide),
    (C4_eviction_reply_frame wState3 5).2.1⟩

theorem post_total_noreplies {s s' : ContractState} (hs : GoodState s)
    (hnr : NoReplies s) (hcap : 1 ≤ s.maxActiveMessages)
    (hle : s.totalActiveMessages ≤ s.maxActiveMessages) {a ts : Nat} {c : String}
    (h : postMessage s a ts c = .ok s') :
    GoodState s' ∧ NoReplies s' ∧ s'.maxActiveMessages = s.maxActiveMessages ∧
    s'.totalActiveMessages = min (s.totalActiveMessages + 1) s.maxActiveMessages := by
  have hgood : GoodState s' := goodState_postMessage hs h
  unfold postMessage at h
  split_ifs at h <;> simp at h
  subst h
  refine ⟨hgood, ?_, ?_, ?_⟩
  · intro j
    unfold createRecord
    split_ifs with he
    · rw [insert_messages, setF_eval]
      split_ifs with hj
      · rfl
      · rcases deleteOldest_messages_or s 1 j with he2 | he2 <;> rw [he2]
        · exact hnr j
        · exact hnr j
    · rw [insert_messages, setF_eval]
      split_ifs with hj
      · rfl
      · exact hnr j
  · unfold createRecord
    split_ifs with he
    · rw [insert_maxActiveMessages, deleteOldest_maxActive]
    · rw [insert_maxActiveMessages]
  · unfold createRecord
    split_ifs with he
    · rw [insert_total, deleteOldest_total hs, traceLen_one hs hnr (by omega)]
      omega
    · rw [insert_total]
      omega

theorem runPosts_total {ops : List (Nat × Nat × String)} :
    ∀ {s s' : ContractState}, GoodState s → NoReplies s →
    1 ≤ s.maxActiveMessages → s.totalActiveMessages ≤ s.maxActiveMessages →
    runPosts s ops = .ok s' →
    s'.maxActiveMessages = s.maxActiveMessages ∧
    s'.totalActiveMessages = min (s.totalActiveMessages + ops.length) s.maxActiveMessages := by
  induction ops with
  | nil =>
    intro s s' _ _ _ hle h
    simp [runPosts] at h
    subst h
    refine ⟨rfl, ?_⟩
    simp only [List.length_nil]
    omega
  | cons op rest ih =>
    intro s s' hs hnr hcap hle h
    obtain ⟨a, ts, c⟩ := op
    simp only [runPosts] at h
    cases hpost : postMessage s a ts c with
    | error e =>
      rw [hpost] at h
      exact absurd h (by simp [Except.bind])
    | ok s1 =>
      rw [hpost] at h
      simp only [Except.bind] at h
      obtain ⟨hg1, hnr1, hmax1, htot1⟩ := post_total_noreplies hs hnr hcap hle hpost
      have hle1 : s1.totalActiveMessages ≤ s1.maxActiveMessages := by
        rw [hmax1, htot1]
        omega
      have hcap1 : 1 ≤ s1.maxActiveMessages := by rw [hmax1]; exact hcap
      obtain ⟨hm, ht⟩ := ih hg1 hnr1 hcap1 hle1 h
      refine ⟨hm.trans hmax1, ?_⟩
      rw [ht, htot1, hmax1]
      simp only [List.length_cons]
      omega

/-- C2, amended: as long as no replies exist, capacity enforcement is
exact: a sequence of successful top-level posts drives the active total to
`min (initial + number of posts) capacity`; in particular any sequence
that would push the total above capacity leaves it exactly at capacity.
(With replies present the bound fails, see `C2_counterexample`: replies
count toward the total but are never evicted.) -/
theorem C2_amended_capacity {s s' : ContractState} (hr : Reachable s)
    (hnr : NoReplies s) (hcap : 1 ≤ s.maxActiveMessages)
    (hle : s.totalActiveMessages ≤ s.maxActiveMessages)
    {ops : List (Nat × Nat × String)} (hrun : runPosts s ops = .ok s') :
    s'.totalActiveMessages = min (s.totalActiveMessages + ops.length) s.maxActiveMessages ∧
    (s.maxActiveMessages < s.totalActiveMessages + ops.length →
      s'.totalActiveMessages = s.maxActiveMessages) := by
  obtain ⟨hm, ht⟩ := runPosts_total (reachable_good hr) hnr hcap hle hrun
  exact ⟨ht, fun hpush => by rw [ht]; omega⟩

theorem wState1_noreplies : NoReplies wState1 := by
  intro id
  show (setF (fun _ => zeroMessage) 0
    { sender := 0, content := "", timestamp := 0, nickname := ""
      replyToMessageId := 0, isDeleted := true } id).replyToMessageId = 0
  rw [setF_eval]
  split_ifs <;> rfl

/-- Witness for `C2_amended_capacity`: one post from `wState1`. -/
theorem C2_amended_capacity_witness :
    NoReplies wState1 ∧ 1 ≤ wState1.maxActiveMessages ∧
    wState1.totalActiveMessages ≤ wState1.maxActiveMessages ∧
    (runOrInit (runPosts wState1 [(5, 100, "x")])).totalActiveMessages =
      min (wState1.totalActiveMessages + 1) wState1.maxActiveMessages :=
  ⟨wState1_noreplies, by decide, by decide,
    (C2_amended_capacity wState1_reachable wState1_noreplies (by decide) (by decide)
      (show runPosts wState1 [(5, 100, "x")] =
        .ok (runOrInit (runPosts wState1 [(5, 100, "x")])) from rfl)).1⟩

/-- Concrete trace for the C2 counterexample: capacity lowered to 1,
cooldown to 0; one post, then two replies to it. -/
def cex2State1 : ContractState := runOrInit (updateParameters (initState 7 0) 7 768 0 50 1)

def cex2State2 : ContractState := runOrInit (updateProfile cex2State1 5 10 "alice" "")

def cex2State3 : ContractState := runOrInit (postMessage cex2State2 5 20 "a")

def cex2State4 : ContractState := runOrInit (replyToMessage cex2State3 5 30 1 "r")

def cex2State5 : ContractState := runOrInit (replyToMessage cex2State4 5 40 1 "r2")

/-- C2, counterexample: a sequence of successful creates pushes the active
total above the configured capacity and leaves it there: with capacity 1,
after `postMessage` and two `replyToMessage` calls the total is 2.  The
second reply finds `totalActiveMessages >= maxActiveMessages`, invokes the
Eviction Engine, but the only remaining active record is a reply, so
nothing is evicted and the insert exceeds the cap. -/
theorem C2_counterexample :
    updateParameters (initState 7 0) 7 768 0 50 1 = .ok cex2State1 ∧
    updateProfile cex2State1 5 10 "alice" "" = .ok cex2State2 ∧
    postMessage cex2State2 5 20 "a" = .ok cex2State3 ∧
    replyToMessage cex2State3 5 30 1 "r" = .ok cex2State4 ∧
    replyToMessage cex2State4 5 40 1 "r2" = .ok cex2State5 ∧
    cex2State5.maxActiveMessages = 1 ∧
    cex2State4.totalActiveMessages = 1 ∧
    cex2State5.totalActiveMessages = 2 :=
  ⟨rfl, rfl, rfl, rfl, rfl, rfl, rfl, rfl⟩

/-- C7, counterexample: with both "no profile" and "empty body" violated,
`postMessage` reports the body error and `replyToMessage` with a bad
parent reports the parent error — not the profile error the claimed order
(profile, body, cooldown, parent) predicts. -/
theorem C7_counterexample :
    (initState 7 0).addressToProfile 5 = zeroProfile ∧
    postMessage (initState 7 0) 5 100 "" = .error "Message cannot be empty" ∧
    replyToMessage (initState 7 0) 5 100 9 "" = .error "Original message does not exist" :=
  ⟨rfl, rfl, rfl⟩

/-- C7, amended: the preconditions are checked in the source order — for
`replyToMessage` first the parent's existence, then body non-empty, body
length, cooldown, profile existence, profile activity (for `postMessage`
the same order without the parent check); with several violated, the
earliest in this order is reported.  Failures are modelled as `.error`
results carrying no successor state, which is the all-or-nothing
transaction semantics: a failed call leaves the state unchanged. -/
theorem C7_amended_precondition_order (s : ContractState) (a ts q : Nat) (c : String) :
    (c.length = 0 → postMessage s a ts c = .error "Message cannot be empty") ∧
    (c.length ≠ 0 → s.maxMessageLength < c.length →
      postMessage s a ts c = .error "Message too long") ∧
    (c.length ≠ 0 → c.length ≤ s.maxMessageLength →
      ts - s.lastMessageTime a < s.messageCooldown →
      postMessage s a ts c = .error "Please wait before posting again") ∧
    (c.length ≠ 0 → c.length ≤ s.maxMessageLength →
      s.messageCooldown ≤ ts - s.lastMessageTime a →
      (s.addressToProfile a).nickname.length = 0 →
      postMessage s a ts c = .error "Create a profile first") ∧
    (c.length ≠ 0 → c.length ≤ s.maxMessageLength →
      s.messageCooldown ≤ ts - s.lastMessageTime a →
      (s.addressToProfile a).nickname.length ≠ 0 →
      (s.addressToProfile a).isActive = false →
      postMessage s a ts c = .error "Profile is deactivated") ∧
    (c.length ≠ 0 → c.length ≤ s.maxMessageLength →
      s.messageCooldown ≤ ts - s.lastMessageTime a →
      (s.addressToProfile a).nickname.length ≠ 0 →
      (s.addressToProfile a).isActive = true →
      postMessage s a ts c = .ok (createRecord s a ts c 0 false)) ∧
    (s.messageCount ≤ q →
      replyToMessage s a ts q c = .error "Original message does not exist") ∧
    (q < s.messageCount → c.length = 0 →
      replyToMessage s a ts q c = .error "Message cannot be empty") ∧
    (q < s.messageCount → c.length ≠ 0 → s.maxMessageLength < c.length →
      replyToMessage s a ts q c = .error "Message too long") ∧
    (q < s.messageCount → c.length ≠ 0 → c.length ≤ s.maxMessageLength →
      ts - s.lastMessageTime a < s.messageCooldown →
      replyToMessage s a ts q c = .error "Please wait before posting again") ∧
    (q < s.messageCount → c.length ≠ 0 → c.length ≤ s.maxMessageLength →
      s.messageCooldown ≤ ts - s.lastMessageTime a →
      (s.addressToProfile a).nickname.length = 0 →
      replyToMessage s a ts q c = .error "Create a profile first") ∧
    (q < s.messageCount → c.length ≠ 0 → c.length ≤ s.maxMessageLength →
      s.messageCooldown ≤ ts - s.lastMessageTime a →
      (s.addressToProfile a).nickname.length ≠ 0 →
      (s.addressToProfile a).isActive = false →
      replyToMessage s a ts q c = .error "Profile is deactivated") ∧
    (q < s.messageCount → c.length ≠ 0 → c.length ≤ s.maxMessageLength →
      s.messageCooldown ≤ ts - s.lastMessageTime a →
      (s.addressToProfile a).nickname.length ≠ 0 →
      (s.addressToProfile a).isActive = true →
      replyToMessage s a ts q c = .ok (createRecord s a ts c q true)) := by
  refine ⟨?_, ?_, ?_, ?_, ?_, ?_, ?_, ?_, ?_, ?_, ?_, ?_, ?_⟩
  · intro h1
    unfold postMessage
    rw [if_pos h1]
  · intro h1 h2
    unfold postMessage
    rw [if_neg h1, if_pos (by omega : c.length > s.maxMessageLength)]
  · intro h1 h2 h3
    unfold postMessage
    rw [if_neg h1, if_neg (by omega : ¬ c.length > s.maxMessageLength), if_pos h3]
  · intro h1 h2 h3 h4
    unfold postMessage
    rw [if_neg h1, if_neg (by omega : ¬ c.length > s.maxMessageLength),
      if_neg (by omega : ¬ ts - s.lastMessageTime a < s.messageCooldown), if_pos h4]
  · intro h1 h2 h3 h4 h5
    unfold postMessage
    rw [if_neg h1, if_neg (by omega : ¬ c.length > s.maxMessageLength),
      if_neg (by omega : ¬ ts - s.lastMessageTime a < s.messageCooldown), if_neg h4,
      if_pos (by rw [h5]; rfl)]
  · intro h1 h2 h3 h4 h5
    unfold postMessage
    rw [if_neg h1, if_neg (by omega : ¬ c.length > s.maxMessageLength),
      if_neg (by omega : ¬ ts - s.lastMessageTime a < s.messageCooldown), if_neg h4,
      if_neg (by rw [h5]; simp)]
  · intro h0
    unfold replyToMessage
    rw [if_pos (by omega : ¬ q < s.messageCount)]
  · intro h0 h1
    unfold replyToMessage
    rw [if_neg (not_not_intro h0), if_pos h1]
  · intro h0 h1 h2
    unfold replyToMessage
    rw [if_neg (not_not_intro h0), if_neg h1,
      if_pos (by omega : c.length > s.maxMessageLength)]
  · intro h0 h1 h2 h3
    unfold replyToMessage
    rw [if_neg (not_not_intro h0), if_neg h1,
      if_neg (by omega : ¬ c.length > s.maxMessageLength), if_pos h3]
  · intro h0 h1 h2 h3 h4
    unfold replyToMessage
    rw [if_neg (not_not_intro h0), if_neg h1,
      if_neg (by omega : ¬ c.length > s.maxMessageLength),
      if_neg (by omega : ¬ ts - s.lastMessageTime a < s.messageCooldown), if_pos h4]
  · intro h0 h1 h2 h3 h4 h5
    unfold replyToMessage
    rw [if_neg (not_not_intro h0), if_neg h1,
      if_neg (by omega : ¬ c.length > s.maxMessageLength),
      if_neg (by omega : ¬ ts - s.lastMessageTime a < s.messageCooldown), if_neg h4,
      if_pos (by rw [h5]; rfl)]
  · intro h0 h1 h2 h3 h4 h5
    unfold replyToMessage
    rw [if_neg (not_not_intro h0), if_neg h1,
      if_neg (by omega : ¬ c.length > s.maxMessageLength),
      if_neg (by omega : ¬ ts - s.lastMessageTime a < s.messageCooldown), if_neg h4,
      if_neg (by rw [h5]; simp)]

/-- Witness for `C7_amended_precondition_order`: the empty-body error wins
over the missing profile. -/
theorem C7_amended_precondition_order_witness :
    postMessage (initState 7 0) 5 100 "" = .error "Message cannot be empty" :=
  (C7_amended_precondition_order (initState 7 0) 5 100 9 "").1 rfl

theorem updateProfile_succeeds {s2 : ContractState} {nm : String} {y ts : Nat}
    {av : String} (hl0 : nm.length ≠ 0) (hl32 : nm.length ≤ 32)
    (hv : validateNickname nm = true)
    (hdir : s2.nicknameToAddress nm = 0 ∨ s2.nicknameToAddress nm = y) :
    ∃ s3, updateProfile s2 y ts nm av = .ok s3 := by
  have htaken : ¬(s2.nicknameToAddress nm ≠ 0 ∧ s2.nicknameToAddress nm ≠ y) := by
    rcases hdir with h | h <;> rw [h] <;> simp
  unfold updateProfile
  rw [if_neg hl0, if_neg (by omega : ¬ nm.length > 32), if_neg (not_not_intro hv),
    if_neg htaken]
  exact ⟨_, rfl⟩

/-- C9: while a handle is held, the directory points at its unique active
holder (so at most one active identity holds it); after the holder
deactivates or renames away, a different identity can claim the handle. -/
theorem C9_handle_uniqueness {s : ContractState} (hr : Reachable s) :
    (∀ nm x, x ≠ 0 → (s.addressToProfile x).isActive = true →
      (s.addressToProfile x).nickname = nm → s.nicknameToAddress nm = x) ∧
    (∀ nm x y, x ≠ 0 → y ≠ 0 →
      (s.addressToProfile x).isActive = true → (s.addressToProfile x).nickname = nm →
      (s.addressToProfile y).isActive = true → (s.addressToProfile y).nickname = nm →
      x = y) ∧
    (∀ nm x, x ≠ 0 → (s.addressToProfile x).isActive = true →
      (s.addressToProfile x).nickname = nm →
      ∀ s2, deactivateProfile s x = .ok s2 →
        ∀ y ts2 av2, y ≠ 0 → y ≠ x → ∃ s3, updateProfile s2 y ts2 nm av2 = .ok s3) ∧
    (∀ nm nm2 x ts1 av1 s2, x ≠ 0 → (s.addressToProfile x).isActive = true →
      (s.addressToProfile x).nickname = nm → nm2 ≠ nm →
      updateProfile s x ts1 nm2 av1 = .ok s2 →
        ∀ y ts2 av2, y ≠ 0 → y ≠ x → ∃ s3, updateProfile s2 y ts2 nm av2 = .ok s3) := by
  have hs := reachable_good hr
  have hpoint : ∀ nm x, x ≠ 0 → (s.addressToProfile x).isActive = true →
      (s.addressToProfile x).nickname = nm → s.nicknameToAddress nm = x := by
    intro nm x hx hact hnick
    rw [← hnick]
    exact hs.active_dir x hx hact
  have hvalid : ∀ nm x, x ≠ 0 → (s.addressToProfile x).isActive = true →
      (s.addressToProfile x).nickname = nm →
      nm.length ≠ 0 ∧ nm.length ≤ 32 ∧ validateNickname nm = true := by
    intro nm x hx hact hnick
    have h0 := hs.active_nonempty x hact
    rw [hnick] at h0
    have h1 := hs.profile_valid x (by rw [hnick]; exact h0)
    rw [hnick] at h1
    exact ⟨h0, h1.1, h1.2⟩
  refine ⟨hpoint, ?_, ?_, ?_⟩
  · intro nm x y hx hy hax hnx hay hny
    have h1 := hpoint nm x hx hax hnx
    have h2 := hpoint nm y hy hay hny
    rw [h1] at h2
    exact h2
  · intro nm x hx hact hnick s2 hdeact y ts2 av2 hy hyx
    obtain ⟨h0, h32, hv⟩ := hvalid nm x hx hact hnick
    have hdirx : s.nicknameToAddress ((s.addressToProfile x).nickname) = x := by
      rw [hnick]
      exact hpoint nm x hx hact hnick
    unfold deactivateProfile at hdeact
    dsimp only at hdeact
    rw [if_neg (by rw [hnick]; exact h0), if_pos hdirx] at hdeact
    simp at hdeact
    subst hdeact
    refine updateProfile_succeeds h0 h32 hv (Or.inl ?_)
    show setF s.nicknameToAddress ((s.addressToProfile x).nickname) 0 nm = 0
    rw [hnick, setF_self]
  · intro nm nm2 x ts1 av1 s2 hx hact hnick hne hupd y ts2 av2 hy hyx
    obtain ⟨h0, h32, hv⟩ := hvalid nm x hx hact hnick
    have hdirx : s.nicknameToAddress nm = x := hpoint nm x hx hact hnick
    have hclean : (s.addressToProfile x).nickname.length > 0 ∧
        s.nicknameToAddress ((s.addressToProfile x).nickname) = x := by
      rw [hnick]
      exact ⟨by omega, hdirx⟩
    unfold updateProfile at hupd
    dsimp only at hupd
    split_ifs at hupd with g1 g2 g3 g4 g5 <;> simp at hupd
    · subst hupd
      refine updateProfile_succeeds h0 h32 hv (Or.inl ?_)
      show setF (setF s.nicknameToAddress ((s.addressToProfile x).nickname) 0)
        nm2 x nm = 0
      rw [setF_eval, if_neg (fun h => hne h.symm), hnick, setF_self]

/-- State with the handle "alice" released by its holder's deactivation. -/
def w9State2 : ContractState := runOrInit (deactivateProfile wState1 5)

/-- Witness for `C9_handle_uniqueness`: identity 5 holds "alice" in
`wState1`; after it deactivates, identity 6 claims "alice". -/
theorem C9_handle_uniqueness_witness :
    (wState1.addressToProfile 5).isActive = true ∧
    (wState1.addressToProfile 5).nickname = "alice" ∧
    deactivateProfile wState1 5 = .ok w9State2 ∧
    ∃ s3, updateProfile w9State2 6 50 "alice" "" = .ok s3 :=
  ⟨by decide, by decide, rfl,
    (C9_handle_uniqueness wState1_reachable).2.2.1 "alice" 5 (by decide) (by decide)
      (by decide) w9State2 rfl 6 50 "" (by decide) (by decide)⟩

/-- The predicate selecting records shown by the latest/pagination views:
top-level and not deleted. -/
def liveTopB (s : ContractState) (id : Nat) : Bool :=
  (s.messages id).replyToMessageId == 0 && !(s.messages id).isDeleted

/-- The full newest-first sequence of live top-level records. -/
def latestSeq (s : ContractState) : List Message :=
  ((s.chronologicalMessageIds.reverse).filter (liveTopB s)).map s.messages

theorem collectLatest_eq (s : ContractState) : ∀ (ids : List Nat) (r : Nat),
    collectLatest s ids r = ((ids.filter (liveTopB s)).map s.messages).take r := by
  intro ids
  induction ids with
  | nil => intro r; cases r <;> rfl
  | cons id rest ih =>
    intro r
    cases r with
    | zero => rfl
    | succ n =>
      by_cases h : liveTopB s id = true
      · have h' : ((s.messages id).replyToMessageId == 0 && !(s.messages id).isDeleted) = true := h
        simp only [collectLatest, h', if_true, List.filter_cons, h, List.map_cons,
          List.take_succ_cons]
        rw [ih n]
      · have h' : ((s.messages id).replyToMessageId == 0 && !(s.messages id).isDeleted) = false := by
          cases hb : liveTopB s id
          · exact hb
          · exact absurd hb h
        simp only [collectLatest, h', Bool.false_eq_true, if_false, List.filter_cons, h]
        rw [ih (n + 1)]

theorem filter_length_mono {α : Type} {p q : α → Bool} (h : ∀ x, p x = true → q x = true) :
    ∀ l : List α, (l.filter p).length ≤ (l.filter q).length := by
  intro l
  induction l with
  | nil => exact Nat.le_refl 0
  | cons x l ih =>
    rw [List.filter_cons, List.filter_cons]
    split_ifs with h1 h2
    · exact Nat.succ_le_succ ih
    · exact absurd (h x h1) h2
    · exact Nat.le_trans ih (Nat.le_succ _)
    · exact ih

theorem length_filter_reverse {α : Type} (p : α → Bool) :
    ∀ l : List α, (l.reverse.filter p).length = (l.filter p).length := by
  intro l
  induction l with
  | nil => rfl
  | cons x l ih =>
    rw [List.reverse_cons, List.filter_append, List.length_append, ih]
    by_cases hp : p x = true <;> simp [List.filter_cons, hp]

theorem latestSeq_length_le {s : ContractState} (hs : GoodState s) :
    (latestSeq s).length ≤ s.totalActiveMessages := by
  unfold latestSeq
  rw [List.length_map, hs.total_eq, ← hs.chron_eq]
  unfold countActive
  rw [← length_filter_reverse (fun id => !(s.messages id).isDeleted)
    s.chronologicalMessageIds]
  refine filter_length_mono (fun x hx => ?_) _
  unfold liveTopB at hx
  cases h : (s.messages x).isDeleted
  · simp [h]
  · rw [h] at hx
    simp at hx

/-- Characterization of `getLatestMessages`: a prefix of the newest-first
live top-level sequence, padded with zero messages up to
`min count totalActiveMessages` slots. -/
theorem getLatestMessages_spec (s : ContractState) (count : Nat)
    (hc : count ≤ s.maxReturnCount) :
    getLatestMessages s count = .ok
      ((latestSeq s).take (min count s.totalActiveMessages) ++
        List.replicate (min count s.totalActiveMessages - (latestSeq s).length)
          zeroMessage) := by
  unfold getLatestMessages
  rw [if_neg (not_not_intro hc)]
  dsimp only
  rw [deleteOldest_maxToDelete, collectLatest_eq]
  have hfilter : ((s.chronologicalMessageIds.reverse.filter (liveTopB s)).map s.messages) =
      latestSeq s := rfl
  rw [hfilter, List.length_take]
  have h2 : min count s.totalActiveMessages -
      min (min count s.totalActiveMessages) (latestSeq s).length =
      min count s.totalActiveMessages - (latestSeq s).length := by omega
  rw [h2]

/-- C5, counterexample: in the state where the only active record is the
reply (id 2), `getLatestMessages 1` allocates `min 1 totalActiveMessages
= 1` slot, its collecting loop finds no live top-level record, and the
zero-initialised slot is returned: an element that is live-looking and
top-level-looking but is no record of the store. -/
theorem C5_counterexample :
    markMessageAsDeleted wState3 5 1 = .ok (runOrInit (markMessageAsDeleted wState3 5 1)) ∧
    (runOrInit (markMessageAsDeleted wState3 5 1)).totalActiveMessages = 1 ∧
    getLatestMessages (runOrInit (markMessageAsDeleted wState3 5 1)) 1 = .ok [zeroMessage] ∧
    ∀ id < (runOrInit (markMessageAsDeleted wState3 5 1)).messageCount,
      (runOrInit (markMessageAsDeleted wState3 5 1)).messages id ≠ zeroMessage :=
  ⟨rfl, rfl, rfl, by decide⟩

/-- C5, amended: for `count ≤ maxReturnCount` the call succeeds; the
result holds, newest first, the first `min count totalActiveMessages`
live top-level records, padded at the end with zero-valued placeholder
records exactly when fewer such records exist than `min count
totalActiveMessages` (possible because `totalActiveMessages` also counts
replies); so the array has `min count totalActiveMessages` entries and
every entry is either a live top-level stored record or the zero
message. -/
theorem C5_latest_messages {s : ContractState} (hr : Reachable s) {count : Nat}
    (hc : count ≤ s.maxReturnCount) :
    ∃ r, getLatestMessages s count = .ok r ∧
      r = (latestSeq s).take (min count s.totalActiveMessages) ++
        List.replicate (min count s.totalActiveMessages - (latestSeq s).length)
          zeroMessage ∧
      r.length = min count s.totalActiveMessages ∧
      ∀ m ∈ r, (∃ id, id < s.messageCount ∧ s.messages id = m ∧
        m.isDeleted = false ∧ m.replyToMessageId = 0) ∨ m = zeroMessage := by
  have hs := reachable_good hr
  refine ⟨_, getLatestMessages_spec s count hc, rfl, ?_, ?_⟩
  · rw [List.length_append, List.length_take, List.length_replicate]
    have hlen := latestSeq_length_le hs
    omega
  · intro m hm
    rcases List.mem_append.mp hm with hm1 | hm2
    · left
      have hmem : m ∈ latestSeq s := List.take_subset _ _ hm1
      unfold latestSeq at hmem
      rcases List.mem_map.mp hmem with ⟨id, hid, hmsg⟩
      rcases List.mem_filter.mp hid with ⟨hidc, hlive⟩
      have hidlt : id < s.messageCount := by
        have := List.mem_reverse.mp hidc
        rw [hs.chron_eq] at this
        exact List.mem_range.mp this
      unfold liveTopB at hlive
      have hnd : (s.messages id).isDeleted = false := by
        cases h : (s.messages id).isDeleted
        · rfl
        · rw [h] at hlive
          exact absurd hlive (by simp)
      have hr0 : (s.messages id).replyToMessageId = 0 := by
        cases hb : ((s.messages id).replyToMessageId == 0)
        · rw [hb, Bool.false_and] at hlive
          exact absurd hlive (by decide)
        · exact eq_of_beq hb
      exact ⟨id, hidlt, hmsg, by rw [← hmsg]; exact hnd, by rw [← hmsg]; exact hr0⟩
    · right; exact List.eq_of_mem_replicate hm2

theorem C5_latest_messages_witness :
    Reachable wState2 ∧ 2 ≤ wState2.maxReturnCount ∧
    (∃ r, getLatestMessages wState2 2 = .ok r ∧
      r = (latestSeq wState2).take (min 2 wState2.totalActiveMessages) ++
        List.replicate (min 2 wState2.totalActiveMessages - (latestSeq wState2).length)
          zeroMessage ∧
      r.length = min 2 wState2.totalActiveMessages ∧
      ∀ m ∈ r, (∃ id, id < wState2.messageCount ∧ wState2.messages id = m ∧
        m.isDeleted = false ∧ m.replyToMessageId = 0) ∨ m = zeroMessage) :=
  ⟨wState2_reachable, by decide, C5_latest_messages wState2_reachable (by decide)⟩

/-- Characterization of the pagination loop: starting with an accumulator
that already holds the slice crossing positions `start ≤ p < active` of
the live top-level subsequence, the loop appends the window of the
remaining sequence from position `start - active` of width
`rs - acc.length`. -/
theorem paginateLoop_eq (s : ContractState) :
    ∀ (ids : List Nat) (start rs active : Nat) (acc : List Message),
      acc.length = min (active - start) rs →
      paginateLoop s ids start rs active acc =
        acc ++ (((ids.filter (liveTopB s)).map s.messages).drop (start - active)).take
          (rs - acc.length) := by
  intro ids
  induction ids with
  | nil =>
    intro start rs active acc hinv
    simp [paginateLoop]
  | cons id rest ih =>
    intro start rs active acc hinv
    by_cases hfull : acc.length < rs
    case neg =>
      have h1 : rs - acc.length = 0 := by omega
      unfold paginateLoop
      rw [if_pos hfull, h1, List.take_zero, List.append_nil]
    case pos =>
      unfold paginateLoop
      rw [if_neg (not_not_intro hfull)]
      dsimp only
      by_cases hq : ((s.messages id).replyToMessageId == 0 && !(s.messages id).isDeleted) = true
      · rw [if_pos hq]
        have hfq : (id :: rest).filter (liveTopB s) = id :: rest.filter (liveTopB s) := by
          rw [List.filter_cons, if_pos]
          exact hq
        by_cases hge : active ≥ start
        · have hstart0 : start - active = 0 := by omega
          by_cases hbreak : active + 1 ≥ start + rs
          · rw [if_pos hge, if_pos hbreak]
            have h1 : rs - acc.length = 1 := by omega
            rw [hfq, hstart0, h1]
            simp [List.map_cons]
          · rw [if_pos hge, if_neg hbreak]
            have hinv2 : (acc ++ [s.messages id]).length = min (active + 1 - start) rs := by
              rw [List.length_append]
              simp only [List.length_cons, List.length_nil]
              omega
            rw [ih start rs (active + 1) (acc ++ [s.messages id]) hinv2, hfq]
            have hlacc : (acc ++ [s.messages id]).length = acc.length + 1 := by
              rw [List.length_append]
              simp only [List.length_cons, List.length_nil]
            have hs1 : start - (active + 1) = 0 := by omega
            have hs2 : rs - acc.length = (rs - (acc.length + 1)) + 1 := by omega
            rw [hlacc, hs1, hstart0, hs2]
            simp [List.map_cons, List.take_succ_cons, List.append_assoc]
        · rw [if_neg hge]
          have hrsne : ¬ (active + 1 ≥ start + rs) := by omega
          rw [if_neg hrsne]
          have hinv2 : acc.length = min (active + 1 - start) rs := by omega
          rw [ih start rs (active + 1) acc hinv2, hfq]
          have hd : start - active = (start - (active + 1)) + 1 := by omega
          rw [hd]
          simp [List.map_cons, List.drop_succ_cons]
      · rw [if_neg hq]
        have hfq : (id :: rest).filter (liveTopB s) = rest.filter (liveTopB s) := by
          rw [List.filter_cons, if_neg]
          intro hcond
          exact hq hcond
        rw [ih start rs active acc hinv, hfq]

theorem filter_congr_mem {α : Type} {p q : α → Bool} :
    ∀ l : List α, (∀ x ∈ l, p x = q x) → l.filter p = l.filter q := by
  intro l
  induction l with
  | nil => intro _; rfl
  | cons x l ih =>
    intro h
    rw [List.filter_cons, List.filter_cons, h x (List.mem_cons_self x l),
      ih (fun y hy => h y (List.mem_cons_of_mem x hy))]

/-- If every live record is top-level, the latest-sequence is exactly as
long as `totalActiveMessages`. -/
def NoLiveReplies (s : ContractState) : Prop :=
  ∀ id, (s.messages id).isDeleted = false → (s.messages id).replyToMessageId = 0

theorem latestSeq_length_eq {s : ContractState} (hs : GoodState s)
    (hnlr : NoLiveReplies s) :
    (latestSeq s).length = s.totalActiveMessages := by
  unfold latestSeq
  rw [List.length_map, hs.total_eq, ← hs.chron_eq]
  unfold countActive
  rw [← length_filter_reverse (fun id => !(s.messages id).isDeleted)
    s.chronologicalMessageIds]
  congr 1
  refine filter_congr_mem _ (fun x _ => ?_)
  cases h : (s.messages x).isDeleted
  · have h0 : (s.messages x).replyToMessageId = 0 := hnlr x h
    simp [liveTopB, h, h0]
  · simp [liveTopB, h]

/-- Characterization of `getMessagesWithPagination` in a state whose
live top-level sequence has length `totalActiveMessages`: page `p` of
size `z` is exactly the window `[p*z, p*z + z)` of that sequence. -/
theorem getMessagesWithPagination_spec (s : ContractState) (page pageSize : Nat)
    (h0 : 0 < pageSize) (hc : pageSize ≤ s.maxReturnCount)
    (hlen : (latestSeq s).length = s.totalActiveMessages) :
    getMessagesWithPagination s page pageSize =
      .ok (((latestSeq s).drop (page * pageSize)).take pageSize) := by
  unfold getMessagesWithPagination
  rw [if_neg (not_not_intro h0), if_neg (not_not_intro hc)]
  dsimp only
  by_cases hst : page * pageSize ≥ s.totalActiveMessages
  · rw [if_pos hst]
    have hdrop : (latestSeq s).drop (page * pageSize) = [] :=
      List.drop_eq_nil_of_le (by omega)
    rw [hdrop, List.take_nil]
  · rw [if_neg hst]
    rw [paginateLoop_eq s s.chronologicalMessageIds.reverse (page * pageSize)
      (if page * pageSize + pageSize > s.totalActiveMessages then
        s.totalActiveMessages - page * pageSize else pageSize) 0 []
      (by simp)]
    have hQ : ((s.chronologicalMessageIds.reverse.filter (liveTopB s)).map s.messages) =
        latestSeq s := rfl
    simp only [List.nil_append, Nat.sub_zero, List.length_nil]
    rw [hQ]
    by_cases hcase : page * pageSize + pageSize > s.totalActiveMessages
    · rw [if_pos hcase]
      have hdl : ((latestSeq s).drop (page * pageSize)).length =
          s.totalActiveMessages - page * pageSize := by
        rw [List.length_drop, hlen]
      have ht1 : ((latestSeq s).drop (page * pageSize)).take
          (s.totalActiveMessages - page * pageSize) =
          (latestSeq s).drop (page * pageSize) :=
        List.take_of_length_le (le_of_eq hdl)
      have ht2 : ((latestSeq s).drop (page * pageSize)).take pageSize =
          (latestSeq s).drop (page * pageSize) := by
        apply List.take_of_length_le
        rw [hdl]
        omega
      rw [ht2, ht1, hdl, Nat.sub_self, List.replicate_zero, List.append_nil]
    · rw [if_neg hcase]
      have hcl : (((latestSeq s).drop (page * pageSize)).take pageSize).length =
          pageSize := by
        rw [List.length_take, List.length_drop, hlen]
        omega
      rw [hcl, Nat.sub_self, List.replicate_zero, List.append_nil]

theorem join_chunks {α : Type} (l : List α) (size : Nat) :
    ∀ P, ((List.range P).map (fun p => (l.drop (p * size)).take size)).flatten =
      l.take (P * size) := by
  intro P
  induction P with
  | zero => simp
  | succ n ih =>
    rw [List.range_succ, List.map_append, List.flatten_append, ih]
    have h1 : (n + 1) * size = n * size + size := by ring
    rw [h1, List.take_add]
    simp

/-- C6, counterexample: in the state where the only active record is the
reply (id 2), page 0 of size 1 allocates `min(pageSize,
totalActiveMessages - 0) = 1` slot, the loop collects nothing, and the
zero-initialised slot is returned even though the live top-level sequence
is empty. -/
theorem C6_counterexample :
    markMessageAsDeleted wState3 5 1 = .ok (runOrInit (markMessageAsDeleted wState3 5 1)) ∧
    getMessagesWithPagination (runOrInit (markMessageAsDeleted wState3 5 1)) 0 1 =
      .ok [zeroMessage] ∧
    latestSeq (runOrInit (markMessageAsDeleted wState3 5 1)) = [] :=
  ⟨rfl, rfl, rfl⟩

/-- C6, amended: in reachable states where every live record is
top-level (`NoLiveReplies` — needed because `totalActiveMessages` also
counts replies, which the page arithmetic trusts), for a valid page
size, page `p` returns exactly the window `[p*pageSize, (p+1)*pageSize)`
of the newest-first live top-level sequence; pages past the end are
empty, and the pages up to any `P` with `P*pageSize` covering the
sequence concatenate, without gaps, overlaps or padding, to the whole
sequence. -/
theorem C6_pagination {s : ContractState} (hr : Reachable s) (hnlr : NoLiveReplies s)
    {pageSize : Nat} (h0 : 0 < pageSize) (hc : pageSize ≤ s.maxReturnCount) :
    (∀ page, getMessagesWithPagination s page pageSize =
        .ok (((latestSeq s).drop (page * pageSize)).take pageSize)) ∧
    (∀ page, (latestSeq s).length ≤ page * pageSize →
        getMessagesWithPagination s page pageSize = .ok []) ∧
    ∀ P, (latestSeq s).length ≤ P * pageSize →
      ((List.range P).map
        (fun p => ((latestSeq s).drop (p * pageSize)).take pageSize)).flatten =
        latestSeq s := by
  have hs := reachable_good hr
  have hlen := latestSeq_length_eq hs hnlr
  refine ⟨fun page => getMessagesWithPagination_spec s page pageSize h0 hc hlen,
    fun page hp => ?_, fun P hP => ?_⟩
  · rw [getMessagesWithPagination_spec s page pageSize h0 hc hlen,
      List.drop_eq_nil_of_le hp, List.take_nil]
  · rw [join_chunks]
    exact List.take_of_length_le hP

theorem wState2_noreplies : NoReplies wState2 :=
  (post_total_noreplies (reachable_good wState1_reachable) wState1_noreplies
    (by decide) (by decide)
    (show postMessage wState1 5 100 "a" = .ok wState2 from rfl)).2.1

theorem wState2_noLiveReplies : NoLiveReplies wState2 :=
  fun id _ => wState2_noreplies id

theorem C6_pagination_witness :
    Reachable wState2 ∧ NoLiveReplies wState2 ∧ 0 < 1 ∧ 1 ≤ wState2.maxReturnCount ∧
    ((∀ page, getMessagesWithPagination wState2 page 1 =
        .ok (((latestSeq wState2).drop (page * 1)).take 1)) ∧
     (∀ page, (latestSeq wState2).length ≤ page * 1 →
        getMessagesWithPagination wState2 page 1 = .ok []) ∧
     ∀ P, (latestSeq wState2).length ≤ P * 1 →
       ((List.range P).map
         (fun p => ((latestSeq wState2).drop (p * 1)).take 1)).flatten =
         latestSeq wState2) :=
  ⟨wState2_reachable, wState2_noLiveReplies, by decide, by decide,
    C6_pagination wState2_reachable wState2_noLiveReplies (by decide) (by decide)⟩

theorem eligibleB_foldMark_not_mem {s : ContractState} {l : List Nat} {y : Nat}
    (h : y ∉ l) : eligibleB (foldMark s l) y = eligibleB s y := by
  unfold eligibleB
  rw [foldMark_messages, if_neg h]

theorem eligibleB_foldMark_mem {s : ContractState} {l : List Nat} {y : Nat}
    (h : y ∈ l) : eligibleB (foldMark s l) y = false := by
  unfold eligibleB
  rw [foldMark_messages, if_pos h]
  simp [setDeleted]

/-- C3: in a reachable state chronological position equals id; the
eviction pass is the iterated soft deletion of its trace; the trace is
strictly increasing in chronological position; and at each deletion
step, with `pre` already deleted, the deleted id `x` is eligible
(live, top-level) and every chronologically earlier id is not eligible
at that moment. -/
theorem C3_eviction_order {s : ContractState} (hr : Reachable s) (count : Nat) :
    s.chronologicalMessageIds = List.range s.messageCount ∧
    deleteOldestMessages s count = foldMark s (deleteOldestTrace s count) ∧
    (deleteOldestTrace s count).Pairwise (· < ·) ∧
    ∀ pre x post, deleteOldestTrace s count = pre ++ x :: post →
      eligibleB (foldMark s pre) x = true ∧
      ∀ y, y < x → eligibleB (foldMark s pre) y = false := by
  have hs := reachable_good hr
  have hnd := chron_tail_nodup hs
  have htr := deleteOldestTrace_eq s count hnd
  have hFnd : ((s.chronologicalMessageIds.drop 1).filter (eligibleB s)).Nodup :=
    hnd.filter _
  have hsub : List.Sublist (s.chronologicalMessageIds.drop 1)
      (List.range s.messageCount) := by
    rw [hs.chron_eq]
    exact List.drop_sublist 1 _
  have hFsorted : ((s.chronologicalMessageIds.drop 1).filter (eligibleB s)).Pairwise
      (· < ·) :=
    (List.pairwise_lt_range s.messageCount).sublist ((List.filter_sublist _).trans hsub)
  refine ⟨hs.chron_eq, deleteOldest_eq_foldMark s count hnd, ?_, ?_⟩
  · rw [htr]
    exact hFsorted.sublist (List.take_sublist _ _)
  · intro pre x post htrace
    rw [htr] at htrace
    have hFdec : (s.chronologicalMessageIds.drop 1).filter (eligibleB s) =
        pre ++ x :: (post ++
          ((s.chronologicalMessageIds.drop 1).filter (eligibleB s)).drop
            (min count s.totalActiveMessages)) := by
      conv_lhs => rw [← List.take_append_drop (min count s.totalActiveMessages)
        ((s.chronologicalMessageIds.drop 1).filter (eligibleB s))]
      rw [htrace]
      simp [List.append_assoc]
    obtain ⟨hndpre, hndrest, hdisj⟩ := List.nodup_append.mp (hFdec ▸ hFnd)
    have hxnotpre : x ∉ pre := fun hx => hdisj hx (List.mem_cons_self x _)
    have hxF : x ∈ (s.chronologicalMessageIds.drop 1).filter (eligibleB s) := by
      rw [hFdec]
      exact List.mem_append.mpr (Or.inr (List.mem_cons_self x _))
    have hxel : eligibleB s x = true := (List.mem_filter.mp hxF).2
    have hxmc : x < s.messageCount := by
      have h2 : x ∈ s.chronologicalMessageIds :=
        List.drop_subset 1 _ (List.mem_of_mem_filter hxF)
      rw [hs.chron_eq] at h2
      exact List.mem_range.mp h2
    refine ⟨?_, ?_⟩
    · rw [eligibleB_foldMark_not_mem hxnotpre]
      exact hxel
    · intro y hy
      by_cases hpre : y ∈ pre
      · exact eligibleB_foldMark_mem hpre
      · rw [eligibleB_foldMark_not_mem hpre]
        cases hey : eligibleB s y
        · rfl
        · exfalso
          have hy0 : y ≠ 0 := by
            intro h0
            rw [h0] at hey
            unfold eligibleB at hey
            rw [hs.sentinel_deleted] at hey
            simp at hey
          have hymem : y ∈ s.chronologicalMessageIds.drop 1 := by
            rw [hs.chron_eq]
            exact mem_drop_one_range (lt_trans hy hxmc) hy0
          have hyF : y ∈ (s.chronologicalMessageIds.drop 1).filter (eligibleB s) :=
            List.mem_filter.mpr ⟨hymem, hey⟩
          rw [hFdec] at hyF
          rcases List.mem_append.mp hyF with hc1 | hc2
          · exact hpre hc1
          · rcases List.mem_cons.mp hc2 with hc3 | hc4
            · rw [hc3] at hy
              exact Nat.lt_irrefl x hy
            · have hsort := hFdec ▸ hFsorted
              obtain ⟨_, hp2, _⟩ := List.pairwise_append.mp hsort
              have hxy : x < y := (List.pairwise_cons.mp hp2).1 y hc4
              omega

theorem C3_eviction_order_witness :
    Reachable wState3 ∧
    (wState3.chronologicalMessageIds = List.range wState3.messageCount ∧
     deleteOldestMessages wState3 5 = foldMark wState3 (deleteOldestTrace wState3 5) ∧
     (deleteOldestTrace wState3 5).Pairwise (· < ·) ∧
     ∀ pre x post, deleteOldestTrace wState3 5 = pre ++ x :: post →
       eligibleB (foldMark wState3 pre) x = true ∧
       ∀ y, y < x → eligibleB (foldMark wState3 pre) y = false) ∧
    deleteOldestTrace wState3 5 = [1] :=
  ⟨wState3_reachable, C3_eviction_order wState3_reachable 5, rfl⟩

end ReactiveTwitter
